import Mathlib

/-
Verification of the Sming ESP8266 UART driver
(`Sming/Arch/Esp8266/Components/driver/uart.cpp`).

The driver is embedded shallowly: hardware registers become explicit state
(`UartHw`, `SysState`), machine words become `Nat` with explicit masking,
the FIFOs become byte lists, and each driver function becomes a pure state
transformer.  Register bit positions and sizes are those of the ESP8266
vendor register header (`uart_register.h`), which the driver treats as an
external hardware contract.  Items declared in the driver header but whose
definitions are not part of the given sources are modelled from the
specification and marked as such.
-/

namespace Uart

/-! ### Register-level constants (ESP8266 vendor header `uart_register.h`) -/

-- Interrupt bit positions; the same position is used in the INT_RAW, INT_ST,
-- INT_ENA and INT_CLR registers.
def UART_RXFIFO_FULL_INT_ST : Nat := 1
def UART_TXFIFO_EMPTY_INT_ST : Nat := 2
def UART_PARITY_ERR_INT_ST : Nat := 4
def UART_FRM_ERR_INT_ST : Nat := 8
def UART_RXFIFO_OVF_INT_ST : Nat := 16
def UART_BRK_DET_INT_ST : Nat := 128
def UART_RXFIFO_TOUT_INT_ST : Nat := 256

def UART_RXFIFO_FULL_INT_ENA : Nat := UART_RXFIFO_FULL_INT_ST
def UART_TXFIFO_EMPTY_INT_ENA : Nat := UART_TXFIFO_EMPTY_INT_ST
def UART_RXFIFO_OVF_INT_ENA : Nat := UART_RXFIFO_OVF_INT_ST
def UART_BRK_DET_INT_ENA : Nat := UART_BRK_DET_INT_ST
def UART_RXFIFO_TOUT_INT_ENA : Nat := UART_RXFIFO_TOUT_INT_ST

def UART_RXFIFO_FULL_INT_CLR : Nat := UART_RXFIFO_FULL_INT_ST
def UART_TXFIFO_EMPTY_INT_CLR : Nat := UART_TXFIFO_EMPTY_INT_ST
def UART_RXFIFO_OVF_INT_CLR : Nat := UART_RXFIFO_OVF_INT_ST
def UART_RXFIFO_TOUT_INT_CLR : Nat := UART_RXFIFO_TOUT_INT_ST

-- CONF0 register bits
def UART_TXD_BRK : Nat := 2 ^ 8
def UART_RXFIFO_RST : Nat := 2 ^ 17
def UART_TXFIFO_RST : Nat := 2 ^ 18

-- CONF1 register fields
def UART_RXFIFO_FULL_THRHD_S : Nat := 0
def UART_RX_TOUT_THRHD_S : Nat := 24
def UART_RX_TOUT_EN : Nat := 2 ^ 31

def UART_RX_FIFO_SIZE : Nat := 128
def UART_TX_FIFO_SIZE : Nat := 128
def UART_CLK_FREQ : Nat := 80000000

/-! ### Driver-level constants (`uart.cpp` / `driver/uart.h`) -/

def UART0 : Nat := 0
def UART1 : Nat := 1
def UART2 : Nat := 2
def UART_PHYSICAL_COUNT : Nat := 2
def UART_COUNT : Nat := 3

def RX_FIFO_FULL_THRESHOLD : Nat := 120
def RX_FIFO_HEADROOM : Nat := UART_RX_FIFO_SIZE - RX_FIFO_FULL_THRESHOLD
def DEFAULT_RX_HEADROOM : Nat := 32 - RX_FIFO_HEADROOM

/-- Modelled from the spec: `UART_PIN_DEFAULT`, the sentinel "unset" pin value
    used when a role is unused (declared in the driver header, which is not
    among the given sources). -/
def UART_PIN_DEFAULT : Nat := 255

/-- Modelled from the spec: bit index of the transmit-wait option flag
    (header not among the given sources; the spec gives two option flags). -/
def UART_OPT_TXWAIT : Nat := 0

/-- Modelled from the spec: bit index of the raw-callback option flag
    (header not among the given sources; the spec gives two option flags). -/
def UART_OPT_CALLBACK_RAW : Nat := 1

/-- Modelled from the spec: the port mode, one of receive-and-transmit,
    receive-only, transmit-only. -/
inductive smg_uart_mode_t where
  | UART_FULL
  | UART_RX_ONLY
  | UART_TX_ONLY
deriving DecidableEq, Repr

export smg_uart_mode_t (UART_FULL UART_RX_ONLY UART_TX_ONLY)

/-! ### Bit-mask helpers: 32-bit registers as `Nat` -/

def MASK32 : Nat := 2 ^ 32 - 1

/-- Bitwise complement within a 32-bit register. -/
def compl32 (v : Nat) : Nat := MASK32 ^^^ (v &&& MASK32)

/-- Clear the bits of `v` in `x`: the effect of `CLEAR_PERI_REG_MASK` and of
    writing `v` to an interrupt-clear register. -/
def clearBits (x v : Nat) : Nat := x &&& compl32 v

/-! ### Circular byte buffer -/

/-- Modelled from the spec: the Circular Byte Buffer (`SerialBuffer`,
    spec section 4.1; its implementation is not among the given sources).
    Fixed capacity; write fails silently when full; read yields 0 when
    empty; `available + free_space = capacity`. -/
structure SerialBuffer where
  capacity : Nat
  data : List Nat
deriving DecidableEq, Repr

def SerialBuffer.available (b : SerialBuffer) : Nat := b.data.length

def SerialBuffer.getFreeSpace (b : SerialBuffer) : Nat := b.capacity - b.data.length

def SerialBuffer.isEmpty (b : SerialBuffer) : Bool := b.data.isEmpty

def SerialBuffer.writeChar (b : SerialBuffer) (c : Nat) : SerialBuffer × Nat :=
  if b.data.length < b.capacity then ({ b with data := b.data ++ [c] }, 1) else (b, 0)

def SerialBuffer.readChar (b : SerialBuffer) : Nat × SerialBuffer :=
  match b.data with
  | [] => (0, b)
  | c :: rest => (c, { b with data := rest })

def SerialBuffer.clear (b : SerialBuffer) : SerialBuffer := { b with data := [] }

/-! ### Data model -/

/-- The port instance (`smg_uart_t`).  The data callback is opaque; only its
    presence is tracked, and its invocations are reported as events. -/
structure smg_uart_t where
  uart_nr : Nat
  baud_rate : Nat
  mode : smg_uart_mode_t
  options : Nat
  rx_pin : Nat
  tx_pin : Nat
  rx_headroom : Nat
  status : Nat
  rx_buffer : Option SerialBuffer
  tx_buffer : Option SerialBuffer
  callback : Bool
deriving DecidableEq, Repr

/-- Hardware registers of one physical UART.  `clkdiv = none` records that
    the clock-divider register has never been written. -/
structure UartHw where
  int_raw : Nat
  int_ena : Nat
  conf0 : Nat
  conf1 : Nat
  clkdiv : Option Nat
  rx_fifo : List Nat
  tx_fifo : List Nat
deriving DecidableEq, Repr

/-- Process-wide driver state: the two physical register banks, the pin-swap
    control bit, pin-function selections (most recent first), the ISR-armed
    bitmask, the registry of instances and the debug-port selector. -/
structure SysState where
  hw0 : UartHw
  hw1 : UartHw
  swap0 : Bool
  pinFuncs : List (Nat × Nat)
  isrMask : Nat
  inst0 : Option smg_uart_t
  inst1 : Option smg_uart_t
  inst2 : Option smg_uart_t
  debugNr : Int
deriving DecidableEq, Repr

def hwGet (s : SysState) (nr : Nat) : UartHw :=
  if nr = 0 then s.hw0 else s.hw1

def hwSet (s : SysState) (nr : Nat) (h : UartHw) : SysState :=
  if nr = 0 then { s with hw0 := h } else { s with hw1 := h }

def instGet (s : SysState) (nr : Nat) : Option smg_uart_t :=
  if nr = 0 then s.inst0 else if nr = 1 then s.inst1 else s.inst2

def instSet (s : SysState) (nr : Nat) (u : Option smg_uart_t) : SysState :=
  if nr = 0 then { s with inst0 := u }
  else if nr = 1 then { s with inst1 := u }
  else { s with inst2 := u }

/-! ### Register access helpers (`uart.cpp` static helpers) -/

def uart_rxfifo_count (hw : UartHw) : Nat := hw.rx_fifo.length

def uart_txfifo_count (hw : UartHw) : Nat := hw.tx_fifo.length

-- UART_TX_FIFO_SIZE - count - 1, computed in int and returned as uint8_t
def uart_txfifo_free (hw : UartHw) : Nat :=
  (((UART_TX_FIFO_SIZE : Int) - uart_txfifo_count hw - 1) % 256).toNat

def uart_txfifo_full (hw : UartHw) : Bool :=
  uart_txfifo_count hw ≥ UART_TX_FIFO_SIZE - 1

def is_physical (uart_nr : Nat) : Bool := uart_nr < UART_PHYSICAL_COUNT

def uart_isr_enabled (s : SysState) (nr : Nat) : Bool := s.isrMask.testBit nr

/-- Modelled from the spec: `smg_uart_rx_enabled` (driver header, not among
    the given sources): the receive role is enabled unless transmit-only. -/
def smg_uart_rx_enabled (u : smg_uart_t) : Bool :=
  match u.mode with
  | UART_TX_ONLY => false
  | _ => true

/-- Modelled from the spec: `smg_uart_tx_enabled` (driver header, not among
    the given sources): the transmit role is enabled unless receive-only. -/
def smg_uart_tx_enabled (u : smg_uart_t) : Bool :=
  match u.mode with
  | UART_RX_ONLY => false
  | _ => true

/-- Resolve a virtual uart to its backing physical one (`get_physical`).
    The registry is consulted for the virtual port. -/
def get_physical (u : smg_uart_t) (s : SysState) : Option smg_uart_t :=
  if u.uart_nr = UART2 then s.inst0 else some u

/-! ### Interrupt handler -/

-- The RX drain loop of `handle_uart_interrupt`: repeat `n` times
-- (read one byte from the RX FIFO, append it to the receive buffer).
def drainLoop : Nat → List Nat → SerialBuffer → List Nat × SerialBuffer
  | 0, fifo, buf => (fifo, buf)
  | n + 1, fifo, buf =>
    match fifo with
    | [] => drainLoop n [] (buf.writeChar 0).1
    | c :: rest => drainLoop n rest (buf.writeChar c).1

-- The TX refill loop of `handle_uart_interrupt`: repeat `n` times
-- (read one byte from the transmit buffer, push it into the TX FIFO).
def fillLoop : Nat → SerialBuffer → List Nat → SerialBuffer × List Nat
  | 0, buf, fifo => (buf, fifo)
  | n + 1, buf, fifo =>
    let r := buf.readChar
    fillLoop n r.2 (fifo ++ [r.1])

/-- Receive servicing of `handle_uart_interrupt` (lines 181-210): drain
    `min(fifo available, buffer free space)` bytes into the receive buffer,
    suppress the FIFO-full callback bit while free space exceeds the
    headroom, and mask interrupt sources that would otherwise recur.
    Returns the new registers, instance, callback status word and the
    number of bytes drained. -/
def uart_service_rx (u : smg_uart_t) (hw : UartHw) (usis status : Nat) :
    UartHw × smg_uart_t × Nat × Nat :=
  let step :=
    match u.rx_buffer with
    | some rb =>
      let avail := uart_rxfifo_count hw
      let space := rb.getFreeSpace
      let read := if avail ≤ space then avail else space
      let space2 := space - read
      let dr := drainLoop read hw.rx_fifo rb
      let status2 :=
        if space2 > u.rx_headroom then clearBits status UART_RXFIFO_FULL_INT_ST else status
      ({ hw with rx_fifo := dr.1 }, { u with rx_buffer := some dr.2 }, status2, read)
    | none => (hw, u, status, 0)
  let hw1 := step.1
  let read := step.2.2.2
  let hw2 :=
    if usis &&& UART_RXFIFO_OVF_INT_ST ≠ 0 then
      { hw1 with int_ena := clearBits hw1.int_ena UART_RXFIFO_OVF_INT_ENA }
    else if read = 0 then
      { hw1 with int_ena :=
          clearBits hw1.int_ena (UART_RXFIFO_FULL_INT_ENA ||| UART_RXFIFO_TOUT_INT_ENA) }
    else hw1
  (hw2, step.2.1, step.2.2.1, read)

/-- Transmit servicing of `handle_uart_interrupt` (lines 212-232): refill the
    TX FIFO with `min(buffer available, fifo free)` bytes; if the FIFO is then
    empty disable the FIFO-empty source, otherwise suppress its callback bit. -/
def uart_service_tx (u : smg_uart_t) (hw : UartHw) (status : Nat) :
    UartHw × smg_uart_t × Nat :=
  let step :=
    match u.tx_buffer with
    | some tb =>
      let space := uart_txfifo_free hw
      let avail := tb.available
      let count := if avail ≤ space then avail else space
      let fl := fillLoop count tb hw.tx_fifo
      ({ hw with tx_fifo := fl.2 }, { u with tx_buffer := some fl.1 })
    | none => (hw, u)
  let hw1 := step.1
  if uart_txfifo_count hw1 = 0 then
    ({ hw1 with int_ena := clearBits hw1.int_ena UART_TXFIFO_EMPTY_INT_ENA }, step.2, status)
  else
    (hw1, step.2, clearBits status UART_TXFIFO_EMPTY_INT_ST)

/-- Result of one `handle_uart_interrupt` invocation: the updated instance
    and state, and the status word passed to the data callback when it was
    invoked. -/
structure IsrResult where
  uart : Option smg_uart_t
  s : SysState
  cb : Option Nat
deriving DecidableEq, Repr

/-- Event servicing of `handle_uart_interrupt` (lines 179-233): unless in
    raw-callback mode, service the receive event and then the transmit
    event; the initial callback status word is the read interrupt status. -/
def uart_serve (u : smg_uart_t) (hw : UartHw) (usis : Nat) :
    UartHw × smg_uart_t × Nat :=
  if u.options.testBit UART_OPT_CALLBACK_RAW then (hw, u, usis)
  else
    let rx :=
      if usis &&& (UART_RXFIFO_FULL_INT_ST ||| UART_RXFIFO_TOUT_INT_ST |||
          UART_RXFIFO_OVF_INT_ST) ≠ 0 then
        let r := uart_service_rx u hw usis usis
        (r.1, r.2.1, r.2.2.1)
      else (hw, u, usis)
    if usis &&& UART_TXFIFO_EMPTY_INT_ST ≠ 0 then
      uart_service_tx rx.2.1 rx.1 rx.2.2
    else rx

/-- The per-port interrupt handler `handle_uart_interrupt`. -/
def handle_uart_interrupt (uart_nr : Nat) (uart : Option smg_uart_t) (s : SysState) :
    IsrResult :=
  let hw := hwGet s uart_nr
  let usis := hw.int_raw &&& hw.int_ena
  if usis = 0 then ⟨uart, s, none⟩
  else
    match uart with
    | none => ⟨none, hwSet s uart_nr { hw with int_ena := 0 }, none⟩
    | some u =>
      if ¬ uart_isr_enabled s uart_nr then
        ⟨some u, hwSet s uart_nr { hw with int_ena := 0 }, none⟩
      else
        let served := uart_serve u hw usis
        let hw1 := served.1
        let u1 := served.2.1
        let status1 := served.2.2
        let u2 := { u1 with status := u1.status ||| status1 }
        let cb := if status1 ≠ 0 ∧ u2.callback then some status1 else none
        let hw2 := { hw1 with int_raw := clearBits hw1.int_raw usis }
        ⟨some u2, hwSet s uart_nr hw2, cb⟩

/-! ### Mainline API -/

-- Read loop of `smg_uart_read` over the receive buffer: up to `n` bytes,
-- stopping when the buffer is empty.
def readLoop : Nat → SerialBuffer → List Nat × SerialBuffer
  | 0, b => ([], b)
  | n + 1, b =>
    if b.isEmpty then ([], b)
    else
      let r := b.readChar
      let rest := readLoop n r.2
      (r.1 :: rest.1, rest.2)

-- Read loop of `smg_uart_read` over the hardware RX FIFO: up to `n` bytes,
-- stopping when the FIFO is empty.
def fifoReadLoop : Nat → List Nat → List Nat × List Nat
  | 0, f => ([], f)
  | _ + 1, [] => ([], [])
  | n + 1, c :: rest =>
    let r := fifoReadLoop n rest
    (c :: r.1, r.2)

/-- `smg_uart_read`: drain the receive buffer first, then residual FIFO
    bytes, then re-arm the receive interrupt sources.  Returns the bytes
    read.  (The `BEFORE_READ` notification hook is opaque and not modelled;
    the global interrupt mask toggles are not observable in this state.) -/
def smg_uart_read (u : smg_uart_t) (size : Nat) (s : SysState) :
    List Nat × smg_uart_t × SysState :=
  if ¬ smg_uart_rx_enabled u ∨ size = 0 then ([], u, s)
  else
    let bufStep :=
      match u.rx_buffer with
      | some rb =>
        let r := readLoop size rb
        (r.1, some r.2)
      | none => ([], none)
    let bs1 := bufStep.1
    let u1 := { u with rx_buffer := bufStep.2 }
    if is_physical u1.uart_nr then
      let hw := hwGet s u1.uart_nr
      let fr := fifoReadLoop (size - bs1.length) hw.rx_fifo
      let hw1 := { hw with
        rx_fifo := fr.2,
        int_raw := clearBits hw.int_raw
          (UART_RXFIFO_FULL_INT_CLR ||| UART_RXFIFO_TOUT_INT_CLR ||| UART_RXFIFO_OVF_INT_CLR),
        int_ena := hw.int_ena |||
          (UART_RXFIFO_FULL_INT_ENA ||| UART_RXFIFO_TOUT_INT_ENA ||| UART_RXFIFO_OVF_INT_ENA) }
      (bs1 ++ fr.1, u1, hwSet s u1.uart_nr hw1)
    else (bs1, u1, s)

/-- `smg_uart_rx_available`: buffered plus FIFO byte count (a pure query;
    the bounded critical section is not observable in this state). -/
def smg_uart_rx_available (u : smg_uart_t) (s : SysState) : Nat :=
  if ¬ smg_uart_rx_enabled u then 0
  else
    (if is_physical u.uart_nr then uart_rxfifo_count (hwGet s u.uart_nr) else 0) +
    (match u.rx_buffer with
     | some rb => rb.available
     | none => 0)

-- Direct-FIFO loop of `smg_uart_write`: push bytes until the data is
-- exhausted or the TX FIFO is full; returns the number written.
def writeFifoLoop : List Nat → List Nat → Nat × List Nat
  | [], fifo => (0, fifo)
  | c :: rest, fifo =>
    if fifo.length ≥ UART_TX_FIFO_SIZE - 1 then (0, fifo)
    else
      let r := writeFifoLoop rest (fifo ++ [c])
      (r.1 + 1, r.2)

-- Buffer-queue loop of `smg_uart_write`: push bytes while `writeChar`
-- succeeds; returns the number queued.
def writeBufLoop : List Nat → SerialBuffer → Nat × SerialBuffer
  | [], b => (0, b)
  | c :: rest, b =>
    let w := b.writeChar c
    if w.2 = 1 then
      let r := writeBufLoop rest w.1
      (r.1 + 1, r.2)
    else (0, b)

/-- One pass of the `smg_uart_write` loop: direct to the TX FIFO when the
    transmit buffer is absent or empty (arming the FIFO-empty interrupt),
    then queue the remainder into the transmit buffer.  With the
    transmit-wait option the source repeats this pass, busy-waiting on the
    interrupt handler, until all bytes are accepted; a sequential model
    cannot make that progress, so a single pass is modelled.  The
    `AFTER_WRITE` notification hook is opaque and not modelled. -/
def smg_uart_write (u : smg_uart_t) (data : List Nat) (s : SysState) :
    Nat × smg_uart_t × SysState :=
  if ¬ smg_uart_tx_enabled u ∨ data = [] then (0, u, s)
  else
    let direct :=
      if is_physical u.uart_nr &&
          (match u.tx_buffer with
           | some tb => tb.isEmpty
           | none => true) then
        let hw := hwGet s u.uart_nr
        let wf := writeFifoLoop data hw.tx_fifo
        let hw1 := { hw with
          tx_fifo := wf.2,
          int_raw := clearBits hw.int_raw UART_TXFIFO_EMPTY_INT_CLR,
          int_ena := hw.int_ena ||| UART_TXFIFO_EMPTY_INT_ENA }
        (wf.1, hwSet s u.uart_nr hw1)
      else (0, s)
    let written := direct.1
    let queued :=
      match u.tx_buffer with
      | some tb =>
        let r := writeBufLoop (data.drop written) tb
        (r.1, { u with tx_buffer := some r.2 })
      | none => (0, u)
    (written + queued.1, queued.2, direct.2)

/-- `smg_uart_tx_free`: free space in the TX FIFO plus the transmit buffer
    (a pure query). -/
def smg_uart_tx_free (u : smg_uart_t) (s : SysState) : Nat :=
  if ¬ smg_uart_tx_enabled u then 0
  else
    (if is_physical u.uart_nr then uart_txfifo_free (hwGet s u.uart_nr) else 0) +
    (match u.tx_buffer with
     | some tb => tb.getFreeSpace
     | none => 0)

/-- `smg_uart_set_break`: set or clear the break bit in CONF0 of the backing
    physical port. -/
def smg_uart_set_break (u : smg_uart_t) (state : Bool) (s : SysState) : SysState :=
  match get_physical u s with
  | none => s
  | some p =>
    let hw := hwGet s p.uart_nr
    let hw1 :=
      if state then { hw with conf0 := hw.conf0 ||| UART_TXD_BRK }
      else { hw with conf0 := clearBits hw.conf0 UART_TXD_BRK }
    hwSet s p.uart_nr hw1

/-- `smg_uart_get_status` (lines 549-569): merge the sticky break/overflow
    bits with the raw hardware error flags of the backing physical port,
    clear both, and return the merged snapshot.  Returns the status value,
    the updated instance and the updated state. -/
def smg_uart_get_status (u : smg_uart_t) (s : SysState) :
    Nat × smg_uart_t × SysState :=
  let status := u.status &&& (UART_BRK_DET_INT_ST ||| UART_RXFIFO_OVF_INT_ST)
  let u1 := { u with status := 0 }
  match get_physical u s with
  | none => (status, u1, s)
  | some p =>
    let hw := hwGet s p.uart_nr
    let intraw := hw.int_raw &&&
      (UART_BRK_DET_INT_ST ||| UART_RXFIFO_OVF_INT_ST |||
       UART_FRM_ERR_INT_ST ||| UART_PARITY_ERR_INT_ST)
    let status1 := status ||| intraw
    let hw1 := { hw with int_raw := clearBits hw.int_raw status1 }
    (status1, u1, hwSet s p.uart_nr hw1)

/-- `smg_uart_flush` (lines 571-615): clear the selected software buffers
    and hardware FIFOs, disable the FIFO-empty source on a transmit flush,
    and re-arm the receive sources on a receive flush. -/
def smg_uart_flush (u : smg_uart_t) (mode : smg_uart_mode_t) (s : SysState) :
    smg_uart_t × SysState :=
  let flushRx := mode ≠ UART_TX_ONLY ∧ u.mode ≠ UART_TX_ONLY
  let flushTx := mode ≠ UART_RX_ONLY ∧ u.mode ≠ UART_RX_ONLY
  let u1 :=
    if flushRx then
      match u.rx_buffer with
      | some rb => { u with rx_buffer := some rb.clear }
      | none => u
    else u
  let u2 :=
    if flushTx then
      match u1.tx_buffer with
      | some tb => { u1 with tx_buffer := some tb.clear }
      | none => u1
    else u1
  if is_physical u2.uart_nr then
    let hw := hwGet s u2.uart_nr
    -- SET then CLEAR of the FIFO-reset bits empties the selected FIFOs and
    -- leaves the bits clear
    let hw1 := { hw with
      conf0 := clearBits (hw.conf0 |||
        ((if flushTx then UART_TXFIFO_RST else 0) ||| (if flushRx then UART_RXFIFO_RST else 0)))
        ((if flushTx then UART_TXFIFO_RST else 0) ||| (if flushRx then UART_RXFIFO_RST else 0)),
      tx_fifo := if flushTx then [] else hw.tx_fifo,
      rx_fifo := if flushRx then [] else hw.rx_fifo }
    let hw2 :=
      if flushTx then { hw1 with int_ena := clearBits hw1.int_ena UART_TXFIFO_EMPTY_INT_ENA }
      else hw1
    let hw3 :=
      if flushRx then
        { hw2 with
          int_raw := clearBits hw2.int_raw (compl32 UART_TXFIFO_EMPTY_INT_CLR),
          int_ena := hw2.int_ena |||
            (UART_RXFIFO_FULL_INT_ENA ||| UART_RXFIFO_TOUT_INT_ENA ||| UART_RXFIFO_OVF_INT_ENA) }
      else hw2
    (u2, hwSet s u2.uart_nr hw3)
  else (u2, s)

/-- `smg_uart_set_baudrate_reg` (lines 617-628): compute the integer clock
    divider and write it; report the actual rate, zero when the divider
    came out zero. -/
def smg_uart_set_baudrate_reg (uart_nr : Nat) (baud_rate : Nat) (s : SysState) :
    Nat × SysState :=
  if ¬ is_physical uart_nr ∨ baud_rate = 0 then (0, s)
  else
    let clkdiv := UART_CLK_FREQ / baud_rate
    let hw := hwGet s uart_nr
    let s1 := hwSet s uart_nr { hw with clkdiv := some clkdiv }
    (if clkdiv ≠ 0 then UART_CLK_FREQ / clkdiv else 0, s1)

/-- `smg_uart_set_baudrate`: resolve to the physical port, program the
    divider there and store the actual rate in the resolved instance. -/
def smg_uart_set_baudrate (u : smg_uart_t) (baud_rate : Nat) (s : SysState) :
    Nat × smg_uart_t × SysState :=
  if u.uart_nr = UART2 then
    match s.inst0 with
    | none => (0, u, s)
    | some u0 =>
      let r := smg_uart_set_baudrate_reg u0.uart_nr baud_rate s
      (r.1, u, { r.2 with inst0 := some { u0 with baud_rate := r.1 } })
  else
    let r := smg_uart_set_baudrate_reg u.uart_nr baud_rate s
    (r.1, { u with baud_rate := r.1 }, r.2)

/-- `smg_uart_get_baudrate`: the stored actual rate of the backing port. -/
def smg_uart_get_baudrate (u : smg_uart_t) (s : SysState) : Nat :=
  match get_physical u s with
  | none => 0
  | some p => p.baud_rate

/-! ### Pin multiplexer -/

-- Pin-function codes (PIN_FUNC_SELECT targets); distinct opaque values.
def FUNC_UART0_TXD : Nat := 100
def FUNC_UART0_TXD_BK : Nat := 101
def FUNC_UART0_RXD : Nat := 102
def FUNC_UART0_CTS : Nat := 103
def FUNC_UART0_RTS : Nat := 104
def FUNC_UART1_TXD_BK : Nat := 105
def FUNC_GPIO : Nat := 106

def setPinFunc (s : SysState) (pin func : Nat) : SysState :=
  { s with pinFuncs := (pin, func) :: s.pinFuncs }

def uart0_pin_select (s : SysState) (pin : Nat) : SysState :=
  match pin with
  | 1 => setPinFunc s 1 FUNC_UART0_TXD
  | 2 => setPinFunc s 2 FUNC_UART0_TXD_BK
  | 3 => setPinFunc s 3 FUNC_UART0_RXD
  | 13 => setPinFunc s 13 FUNC_UART0_CTS
  | 15 => setPinFunc s 15 FUNC_UART0_RTS
  | _ => s

def uart0_pin_restore (s : SysState) (pin : Nat) : SysState :=
  match pin with
  | 1 | 2 | 3 | 13 | 15 => setPinFunc s pin FUNC_GPIO
  | _ => s

def uart1_pin_select (s : SysState) (pin : Nat) : SysState :=
  match pin with
  | 2 => setPinFunc s 2 FUNC_UART1_TXD_BK
  | _ => s

def uart1_pin_restore (s : SysState) (pin : Nat) : SysState :=
  match pin with
  | 2 => setPinFunc s 2 FUNC_GPIO
  | _ => s

/-- `smg_uart_swap` (lines 818-862): on UART0, switch between the default
    and the alternate pin set, driving the hardware pin-swap control bit. -/
def smg_uart_swap (u : smg_uart_t) (tx_pin : Int) (s : SysState) :
    smg_uart_t × SysState :=
  match u.uart_nr with
  | 0 =>
    let s1 := uart0_pin_restore s u.tx_pin
    let s2 := uart0_pin_restore s1 u.rx_pin
    let moved :=
      if u.tx_pin = 1 ∨ u.tx_pin = 2 ∨ u.rx_pin = 3 then
        let ua := if smg_uart_tx_enabled u then { u with tx_pin := 15 } else u
        let ub := if smg_uart_rx_enabled ua then { ua with rx_pin := 13 } else ua
        (ub, { s2 with swap0 := true })
      else
        let ua := if smg_uart_tx_enabled u then
            { u with tx_pin := if tx_pin = 2 then 2 else 1 } else u
        let ub := if smg_uart_rx_enabled ua then { ua with rx_pin := 3 } else ua
        (ub, { s2 with swap0 := false })
    let s3 := uart0_pin_select moved.2 moved.1.tx_pin
    let s4 := uart0_pin_select s3 moved.1.rx_pin
    (moved.1, s4)
  | _ => (u, s)

/-- `smg_uart_set_tx` (lines 864-875): reassign only the transmit pin, legal
    only on UART0 with the transmit role enabled. -/
def smg_uart_set_tx (u : smg_uart_t) (tx_pin : Int) (s : SysState) :
    Bool × smg_uart_t × SysState :=
  if u.uart_nr = UART0 ∧ smg_uart_tx_enabled u then
    let s1 := uart0_pin_restore s u.tx_pin
    let u1 := { u with tx_pin := if tx_pin = 2 then 2 else 1 }
    let s2 := uart0_pin_select s1 u1.tx_pin
    (true, u1, s2)
  else (false, u, s)

/-- `smg_uart_set_pins` (lines 877-913): request a (tx, rx) pin pair;
    unsupported combinations are refused. -/
def smg_uart_set_pins (u : smg_uart_t) (tx_pin rx_pin : Int) (s : SysState) :
    Bool × smg_uart_t × SysState :=
  if u.uart_nr ≠ UART0 then (false, u, s)
  else
    let txStep :=
      if smg_uart_tx_enabled u ∧ (u.tx_pin : Int) ≠ tx_pin then
        if rx_pin = 13 ∧ tx_pin = 15 then
          let r := smg_uart_swap u 15 s
          (true, r.1, r.2)
        else if rx_pin = 3 ∧ (tx_pin = 1 ∨ tx_pin = 2) then
          if (u.rx_pin : Int) ≠ rx_pin then
            let r := smg_uart_swap u tx_pin s
            (true, r.1, r.2)
          else
            let r := smg_uart_set_tx u tx_pin s
            (true, r.2.1, r.2.2)
        else (false, u, s)
      else (true, u, s)
    let res := txStep.1
    let u1 := txStep.2.1
    let s1 := txStep.2.2
    if smg_uart_rx_enabled u1 ∧ (u1.rx_pin : Int) ≠ rx_pin then
      if rx_pin = 13 ∧ tx_pin = 15 then
        let r := smg_uart_swap u1 15 s1
        (res, r.1, r.2)
      else (false, u1, s1)
    else (res, u1, s1)

/-! ### ISR arming, lifecycle -/

/-- `smg_uart_start_isr` (lines 408-455): program thresholds, clear pending
    interrupt status, enable the receive sources and arm the port's bit in
    the ISR mask.  (Attaching the shared handler routine is opaque.) -/
def smg_uart_start_isr (u : smg_uart_t) (s : SysState) : SysState :=
  if ¬ is_physical u.uart_nr then s
  else
    let conf1 :=
      if smg_uart_rx_enabled u then
        (RX_FIFO_FULL_THRESHOLD <<< UART_RXFIFO_FULL_THRHD_S) |||
          (2 <<< UART_RX_TOUT_THRHD_S) ||| UART_RX_TOUT_EN
      else 0
    let intena :=
      if smg_uart_rx_enabled u then
        UART_RXFIFO_FULL_INT_ENA ||| UART_RXFIFO_TOUT_INT_ENA |||
          UART_BRK_DET_INT_ENA ||| UART_RXFIFO_OVF_INT_ENA
      else 0
    let hw := hwGet s u.uart_nr
    let hw1 := { hw with
      conf1 := conf1,
      int_raw := clearBits hw.int_raw 0xffff,
      int_ena := intena }
    let s1 := hwSet s u.uart_nr hw1
    { s1 with isrMask := s1.isrMask ||| (1 <<< u.uart_nr) }

/-- `smg_uart_detach` (lines 935-947): disarm the port's ISR bit and quiesce
    its interrupt registers. -/
def smg_uart_detach (uart_nr : Nat) (s : SysState) : SysState :=
  if ¬ is_physical uart_nr then s
  else
    let s1 := { s with isrMask := clearBits s.isrMask (1 <<< uart_nr) }
    let hw := hwGet s1 uart_nr
    hwSet s1 uart_nr { hw with
      conf1 := 0,
      int_raw := clearBits hw.int_raw 0xffff,
      int_ena := 0 }

/-- `smg_uart_get_uart`: registry lookup by identifier. -/
def smg_uart_get_uart (s : SysState) (uart_nr : Nat) : Option smg_uart_t :=
  if uart_nr < UART_COUNT then instGet s uart_nr else none

/-- Modelled from the spec: `smg_uart_realloc_buffer` (declared in the driver
    header, implementation not among the given sources).  Allocates a buffer
    of the requested capacity; a zero size leaves the port unbuffered.
    Allocation never fails in the model (resource exhaustion is out of
    scope of these claims). -/
def smg_uart_realloc_buffer (size : Nat) : Option SerialBuffer :=
  if size = 0 then none else some ⟨size, []⟩

/-- The open() configuration record (`smg_uart_config_t`). -/
structure smg_uart_config_t where
  uart_nr : Nat
  tx_pin : Nat
  mode : smg_uart_mode_t
  options : Nat
  baudrate : Nat
  format : Nat
  rx_size : Nat
  tx_size : Nat
deriving DecidableEq, Repr

-- Common tail of `smg_uart_init_ex` (lines 741-748): program the baud rate,
-- flush, install in the registry, arm interrupts.  (The AFTER_OPEN
-- notification hook is opaque.)  The header declares `smg_uart_flush` with
-- a `UART_FULL` default mode argument.
def uartInitFinish (u : smg_uart_t) (cfg : smg_uart_config_t) (s : SysState) :
    Option smg_uart_t × SysState :=
  let rb := smg_uart_set_baudrate u cfg.baudrate s
  let fl := smg_uart_flush rb.2.1 UART_FULL rb.2.2
  let s1 := instSet fl.2 cfg.uart_nr (some fl.1)
  let s2 := smg_uart_start_isr fl.1 s1
  (some fl.1, s2)

/-- `smg_uart_init_ex` (lines 649-749): reject a duplicate identifier,
    allocate buffers, set up pins, format and rate for a physical port, and
    install the instance.  On UART1 a receive-only request is refused and
    any other mode is forced to transmit-only. -/
def smg_uart_init_ex (cfg : smg_uart_config_t) (s : SysState) :
    Option smg_uart_t × SysState :=
  if smg_uart_get_uart s cfg.uart_nr ≠ none then (none, s)
  else
    let u : smg_uart_t := {
      uart_nr := cfg.uart_nr, baud_rate := 0, mode := cfg.mode,
      options := cfg.options, rx_pin := UART_PIN_DEFAULT, tx_pin := UART_PIN_DEFAULT,
      rx_headroom := DEFAULT_RX_HEADROOM, status := 0,
      rx_buffer := none, tx_buffer := none, callback := false }
    match cfg.uart_nr with
    | 0 | 2 =>
      -- virtual uart requires a minimum RAM buffer
      let rxBufferSize := cfg.rx_size + (if cfg.uart_nr = 2 then UART_RX_FIFO_SIZE else 0)
      let txBufferSize := cfg.tx_size + (if cfg.uart_nr = 2 then UART_TX_FIFO_SIZE else 0)
      let u1 := if smg_uart_rx_enabled u then
          { u with rx_buffer := smg_uart_realloc_buffer rxBufferSize } else u
      let u2 := if smg_uart_tx_enabled u1 then
          { u1 with tx_buffer := smg_uart_realloc_buffer txBufferSize } else u1
      if cfg.uart_nr = 2 then uartInitFinish u2 cfg s
      else
        let s1 := smg_uart_detach cfg.uart_nr s
        let rxStep :=
          if smg_uart_rx_enabled u2 then
            let ua := { u2 with rx_pin := 3 }
            (ua, uart0_pin_select s1 ua.rx_pin)
          else (u2, s1)
        let txStep :=
          if smg_uart_tx_enabled rxStep.1 then
            let ua := { rxStep.1 with tx_pin := if cfg.tx_pin = 2 then 2 else 1 }
            (ua, uart0_pin_select rxStep.2 ua.tx_pin)
          else rxStep
        let s2 := { txStep.2 with swap0 := false }
        let s3 := hwSet s2 0 { hwGet s2 0 with conf0 := cfg.format }
        uartInitFinish txStep.1 cfg s3
    | 1 =>
      -- the interrupt handler does not support RX on UART1
      if u.mode = UART_RX_ONLY then (none, s)
      else
        let u1 := { u with mode := UART_TX_ONLY }
        let u2 := { u1 with tx_buffer := smg_uart_realloc_buffer cfg.tx_size }
        let s1 := smg_uart_detach 1 s
        let u3 := { u2 with tx_pin := 2 }
        let s2 := uart1_pin_select s1 u3.tx_pin
        let s3 := hwSet s2 1 { hwGet s2 1 with conf0 := cfg.format }
        uartInitFinish u3 cfg s3
    | _ => (none, s)

/-! ### The mainline operation algebra (for re-arming claims) -/

/-- One mainline driver operation on an open instance, used to state which
    operations can re-arm particular interrupt sources. -/
inductive DriverOp where
  | opIsr : DriverOp
  | opRead (size : Nat) : DriverOp
  | opWrite (data : List Nat) : DriverOp
  | opFlush (mode : smg_uart_mode_t) : DriverOp
  | opGetStatus : DriverOp
  | opRxAvail : DriverOp
  | opTxFree : DriverOp
  | opSetBreak (b : Bool) : DriverOp
  | opSetBaud (rate : Nat) : DriverOp
  | opSwap (tx : Int) : DriverOp
  | opSetTx (tx : Int) : DriverOp
  | opSetPins (tx rx : Int) : DriverOp
deriving DecidableEq, Repr

/-- Apply one mainline operation (or an interrupt arrival on the instance's
    own port) to the instance and the system state.  The available-count
    queries are pure and leave the state unchanged. -/
def applyOp (op : DriverOp) (u : smg_uart_t) (s : SysState) : smg_uart_t × SysState :=
  match op with
  | .opIsr =>
    let r := handle_uart_interrupt u.uart_nr (some u) s
    (r.uart.getD u, r.s)
  | .opRead n =>
    let r := smg_uart_read u n s
    (r.2.1, r.2.2)
  | .opWrite d =>
    let r := smg_uart_write u d s
    (r.2.1, r.2.2)
  | .opFlush m => smg_uart_flush u m s
  | .opGetStatus =>
    let r := smg_uart_get_status u s
    (r.2.1, r.2.2)
  | .opRxAvail => (u, s)
  | .opTxFree => (u, s)
  | .opSetBreak b => (u, smg_uart_set_break u b s)
  | .opSetBaud r =>
    let x := smg_uart_set_baudrate u r s
    (x.2.1, x.2.2)
  | .opSwap t => smg_uart_swap u t s
  | .opSetTx t =>
    let r := smg_uart_set_tx u t s
    (r.2.1, r.2.2)
  | .opSetPins t r =>
    let x := smg_uart_set_pins u t r s
    (x.2.1, x.2.2)

/-! ### Concrete fixtures for witnesses and counterexamples -/

/-- Power-on register bank: everything clear, the divider never written. -/
def hw_init : UartHw := ⟨0, 0, 0, 0, none, [], []⟩

/-- Power-on driver state: no instances, no pin selections, debug port off. -/
def sys_init : SysState := ⟨hw_init, hw_init, false, [], 0, none, none, none, -1⟩

-- C1 fixtures: UART1 configurations requesting a receive role.
def c1_cfg_rx : smg_uart_config_t := ⟨1, 0, UART_RX_ONLY, 0, 115200, 28, 32, 16⟩
def c1_cfg_full : smg_uart_config_t := ⟨1, 0, UART_FULL, 0, 115200, 28, 32, 16⟩

-- C3 fixtures: transmit+receive port, 8-byte receive buffer, headroom 2;
-- the hardware has latched a FIFO-full condition with the receive sources
-- armed (FULL, TOUT, BRK and OVF enables, as programmed by start_isr).
def c3_uart : smg_uart_t :=
  ⟨0, 115200, UART_FULL, 0, 3, 1, 2, 0, some ⟨8, []⟩, none, true⟩
def c3_ena : Nat :=
  UART_RXFIFO_FULL_INT_ENA ||| UART_RXFIFO_TOUT_INT_ENA |||
    UART_BRK_DET_INT_ENA ||| UART_RXFIFO_OVF_INT_ENA
def c3_sys : SysState :=
  { sys_init with
    hw0 := { hw_init with
      rx_fifo := [10, 20, 30, 40, 50, 60],
      int_raw := UART_RXFIFO_FULL_INT_ST,
      int_ena := c3_ena },
    isrMask := 1 }
def c3_r1 : IsrResult := handle_uart_interrupt 0 (some c3_uart) c3_sys
-- one further delivered byte and a new FIFO-full condition
def c3_sys2 : SysState :=
  { c3_r1.s with
    hw0 := { c3_r1.s.hw0 with
      rx_fifo := [70],
      int_raw := c3_r1.s.hw0.int_raw ||| UART_RXFIFO_FULL_INT_ST } }
-- variant: only five bytes delivered, leaving free space above the headroom
def c3_sys5 : SysState :=
  { sys_init with
    hw0 := { hw_init with
      rx_fifo := [10, 20, 30, 40, 50],
      int_raw := UART_RXFIFO_FULL_INT_ST,
      int_ena := c3_ena },
    isrMask := 1 }

-- C4 fixtures: full receive buffer; overflow latched together with
-- FIFO-full, receive sources armed.
def c4_uart : smg_uart_t :=
  ⟨0, 115200, UART_FULL, 0, 3, 1, 2, 0, some ⟨4, [1, 2, 3, 4]⟩, none, false⟩
def c4_sys : SysState :=
  { sys_init with
    hw0 := { hw_init with
      rx_fifo := [9, 9],
      int_raw := UART_RXFIFO_FULL_INT_ST ||| UART_RXFIFO_OVF_INT_ST,
      int_ena := c3_ena },
    isrMask := 1 }
-- same latched state without the overflow bit
def c4_sys_noovf : SysState :=
  { sys_init with
    hw0 := { hw_init with
      rx_fifo := [9, 9],
      int_raw := UART_RXFIFO_FULL_INT_ST,
      int_ena := c3_ena },
    isrMask := 1 }
-- re-arming witness input: receive sources masked, a read re-arms them
def c4_uart_rd : smg_uart_t :=
  ⟨0, 115200, UART_FULL, 0, 3, 1, 2, 0, some ⟨4, [1, 2, 3, 4]⟩, none, false⟩
def c4_sys_rd : SysState :=
  { sys_init with hw0 := { hw_init with int_ena := 0 }, isrMask := 1 }

-- C5 fixtures: transmit buffer holding two bytes, FIFO-empty latched and
-- enabled.
def c5_uart : smg_uart_t :=
  ⟨0, 115200, UART_FULL, 0, 3, 1, 2, 0, none, some ⟨8, [5, 6]⟩, true⟩
def c5_sys : SysState :=
  { sys_init with
    hw0 := { hw_init with
      int_raw := UART_TXFIFO_EMPTY_INT_ST,
      int_ena := UART_TXFIFO_EMPTY_INT_ENA },
    isrMask := 1 }
-- re-arming witness input: FIFO-empty masked, a write re-arms it
def c5_uart_wr : smg_uart_t :=
  ⟨0, 115200, UART_FULL, 0, 3, 1, 2, 0, none, some ⟨8, []⟩, true⟩
def c5_sys_wr : SysState :=
  { sys_init with hw0 := { hw_init with int_ena := 0 }, isrMask := 1 }

-- C6 fixtures: overflow latched both stickily and in the raw register.
def c6_uart : smg_uart_t :=
  ⟨0, 115200, UART_FULL, 0, 3, 1, 2, UART_RXFIFO_OVF_INT_ST, none, none, false⟩
def c6_sys : SysState :=
  { sys_init with hw0 := { hw_init with int_raw := UART_RXFIFO_OVF_INT_ST } }

-- C7 fixture: UART0 on the default pin set (tx = 2 variant).
def c7_uart : smg_uart_t :=
  ⟨0, 115200, UART_FULL, 0, 3, 2, 2, 0, none, none, false⟩

-- C8 counterexample fixture: the mixed pin state tx = 1, rx = 13 reached by
-- opening UART0, swapping, then reassigning only the transmit pin.
def c8_uart : smg_uart_t :=
  ⟨0, 115200, UART_FULL, 0, 13, 1, 2, 0, none, none, false⟩
def c8_sys : SysState := { sys_init with swap0 := true }
-- C8 witness fixture: a coherent default pin state and an unsupported request.
def c8w_uart : smg_uart_t :=
  ⟨0, 115200, UART_FULL, 0, 3, 1, 2, 0, none, none, false⟩

-- C9 fixtures: UART0 already open.
def c9_uart : smg_uart_t :=
  ⟨0, 115200, UART_FULL, 0, 3, 1, 2, 0, some ⟨8, [42]⟩, some ⟨8, []⟩, false⟩
def c9_sys : SysState := { sys_init with inst0 := some c9_uart, isrMask := 1 }
def c9_cfg : smg_uart_config_t := ⟨0, 1, UART_FULL, 0, 9600, 28, 16, 16⟩

-- C10 fixture: sticky flags holding FIFO-full, timeout, framing, parity,
-- break and overflow together.
def c10_uart : smg_uart_t :=
  ⟨0, 115200, UART_FULL, 0, 3, 1, 2,
   UART_RXFIFO_FULL_INT_ST ||| UART_RXFIFO_TOUT_INT_ST ||| UART_FRM_ERR_INT_ST |||
     UART_PARITY_ERR_INT_ST ||| UART_BRK_DET_INT_ST ||| UART_RXFIFO_OVF_INT_ST,
   none, none, false⟩

/-! ### Bit-level helper lemmas -/

theorem lor_land (x y t : Nat) : (x ||| y) &&& t = (x &&& t) ||| (y &&& t) := by
  apply Nat.eq_of_testBit_eq
  intro i
  simp only [Nat.testBit_and, Nat.testBit_or]
  cases x.testBit i <;> cases y.testBit i <;> cases t.testBit i <;> rfl

theorem clearBits_testBit (x v i : Nat) :
    (clearBits x v).testBit i = (x.testBit i && (!v.testBit i && decide (i < 32))) := by
  simp only [clearBits, compl32, MASK32, Nat.testBit_and, Nat.testBit_xor,
    Nat.testBit_two_pow_sub_one]
  cases x.testBit i <;> cases v.testBit i <;> by_cases h : i < 32 <;> simp [h]

/-- Clearing a mask kills every bit inside it. -/
theorem clearBits_land_subset (x v t : Nat) (h : t &&& v = t) :
    clearBits x v &&& t = 0 := by
  apply Nat.eq_of_testBit_eq
  intro i
  have ht := congrArg (fun z => Nat.testBit z i) h
  simp only [Nat.testBit_and] at ht
  simp only [Nat.testBit_and, clearBits_testBit, Nat.zero_testBit]
  cases hx : x.testBit i <;> cases hv : v.testBit i <;>
    cases htb : t.testBit i <;> simp_all

/-- Clearing bits never sets a bit. -/
theorem clearBits_land_zero (x v t : Nat) (h : x &&& t = 0) :
    clearBits x v &&& t = 0 := by
  apply Nat.eq_of_testBit_eq
  intro i
  have hx := congrArg (fun z => Nat.testBit z i) h
  simp only [Nat.testBit_and, Nat.zero_testBit] at hx
  simp only [Nat.testBit_and, clearBits_testBit, Nat.zero_testBit]
  cases hxb : x.testBit i <;> cases htb : t.testBit i <;> simp_all

/-- Clearing a mask disjoint from `t` leaves the `t` bits unchanged
    (for `t` within the 32-bit register width). -/
theorem clearBits_land_disjoint (x v t : Nat) (hv : v &&& t = 0) (ht : t < 2 ^ 32) :
    clearBits x v &&& t = x &&& t := by
  apply Nat.eq_of_testBit_eq
  intro i
  have hvt := congrArg (fun z => Nat.testBit z i) hv
  simp only [Nat.testBit_and, Nat.zero_testBit] at hvt
  simp only [Nat.testBit_and, clearBits_testBit]
  by_cases hi : i < 32
  · cases hxb : x.testBit i <;> cases hvb : v.testBit i <;>
      cases htb : t.testBit i <;> simp_all
  · have : t.testBit i = false := by
      apply Nat.testBit_eq_false_of_lt
      calc t < 2 ^ 32 := ht
        _ ≤ 2 ^ i := Nat.pow_le_pow_right (by norm_num) (Nat.le_of_not_lt hi)
    simp [this]

/-- A masked word is nonzero exactly when the bit is set. -/
theorem land_two_pow_ne_zero (x i : Nat) : x &&& 2 ^ i ≠ 0 ↔ x.testBit i = true := by
  constructor
  · intro h
    by_contra hb
    apply h
    apply Nat.eq_of_testBit_eq
    intro j
    simp only [Nat.testBit_and, Nat.testBit_two_pow, Nat.zero_testBit]
    by_cases hij : i = j
    · subst hij
      simp [Bool.eq_false_iff.mpr hb]
    · simp [hij]
  · intro h hz
    have := congrArg (fun z => Nat.testBit z i) hz
    simp [Nat.testBit_and, Nat.testBit_two_pow, h] at this

/-- Growing the mask preserves a nonzero intersection. -/
theorem land_ne_zero_mono (x t t' : Nat) (h : t &&& t' = t) (hx : x &&& t ≠ 0) :
    x &&& t' ≠ 0 := by
  intro hz
  apply hx
  calc x &&& t = x &&& (t &&& t') := by rw [h]
    _ = x &&& (t' &&& t) := by rw [Nat.and_comm t t']
    _ = x &&& t' &&& t := by rw [Nat.and_assoc]
    _ = 0 &&& t := by rw [hz]
    _ = 0 := Nat.zero_and t

/-! ### State-plumbing helper lemmas -/

theorem hwGet_hwSet (s : SysState) (nr : Nat) (h : UartHw) :
    hwGet (hwSet s nr h) nr = h := by
  by_cases h0 : nr = 0 <;> simp [hwGet, hwSet, h0]

/-- A register write that keeps the interrupt-enable field intact keeps it
    intact at every bank. -/
theorem hwGet_hwSet_int_ena (s : SysState) (m : Nat) (h : UartHw) (n : Nat)
    (hh : h.int_ena = (hwGet s m).int_ena) :
    (hwGet (hwSet s m h) n).int_ena = (hwGet s n).int_ena := by
  by_cases hm : m = 0 <;> by_cases hn : n = 0 <;>
    simp_all [hwGet, hwSet]

theorem hwGet_congr (s s' : SysState) (n : Nat)
    (h0 : s'.hw0 = s.hw0) (h1 : s'.hw1 = s.hw1) : hwGet s' n = hwGet s n := by
  by_cases hn : n = 0 <;> simp [hwGet, hn, h0, h1]

theorem setPinFunc_hw0 (s : SysState) (p f : Nat) : (setPinFunc s p f).hw0 = s.hw0 := rfl

theorem setPinFunc_hw1 (s : SysState) (p f : Nat) : (setPinFunc s p f).hw1 = s.hw1 := rfl

theorem uart0_pin_select_hw0 (s : SysState) (p : Nat) :
    (uart0_pin_select s p).hw0 = s.hw0 := by
  unfold uart0_pin_select
  split <;> rfl

theorem uart0_pin_select_hw1 (s : SysState) (p : Nat) :
    (uart0_pin_select s p).hw1 = s.hw1 := by
  unfold uart0_pin_select
  split <;> rfl

theorem uart0_pin_restore_hw0 (s : SysState) (p : Nat) :
    (uart0_pin_restore s p).hw0 = s.hw0 := by
  unfold uart0_pin_restore
  split <;> rfl

theorem uart0_pin_restore_hw1 (s : SysState) (p : Nat) :
    (uart0_pin_restore s p).hw1 = s.hw1 := by
  unfold uart0_pin_restore
  split <;> rfl

theorem smg_uart_swap_hw0 (u : smg_uart_t) (t : Int) (s : SysState) :
    (smg_uart_swap u t s).2.hw0 = s.hw0 := by
  unfold smg_uart_swap
  split
  · simp only [uart0_pin_select_hw0]
    split <;> simp only [uart0_pin_restore_hw0]
  · rfl

theorem smg_uart_swap_hw1 (u : smg_uart_t) (t : Int) (s : SysState) :
    (smg_uart_swap u t s).2.hw1 = s.hw1 := by
  unfold smg_uart_swap
  split
  · simp only [uart0_pin_select_hw1]
    split <;> simp only [uart0_pin_restore_hw1]
  · rfl

theorem smg_uart_set_tx_hw0 (u : smg_uart_t) (t : Int) (s : SysState) :
    (smg_uart_set_tx u t s).2.2.hw0 = s.hw0 := by
  unfold smg_uart_set_tx
  split
  · simp only [uart0_pin_select_hw0, uart0_pin_restore_hw0]
  · rfl

theorem smg_uart_set_tx_hw1 (u : smg_uart_t) (t : Int) (s : SysState) :
    (smg_uart_set_tx u t s).2.2.hw1 = s.hw1 := by
  unfold smg_uart_set_tx
  split
  · simp only [uart0_pin_select_hw1, uart0_pin_restore_hw1]
  · rfl

theorem smg_uart_set_pins_hw0 (u : smg_uart_t) (t r : Int) (s : SysState) :
    (smg_uart_set_pins u t r s).2.2.hw0 = s.hw0 := by
  unfold smg_uart_set_pins
  split
  · rfl
  · dsimp only
    (repeat' split) <;> simp_all only [smg_uart_swap_hw0, smg_uart_set_tx_hw0]

theorem smg_uart_set_pins_hw1 (u : smg_uart_t) (t r : Int) (s : SysState) :
    (smg_uart_set_pins u t r s).2.2.hw1 = s.hw1 := by
  unfold smg_uart_set_pins
  split
  · rfl
  · dsimp only
    (repeat' split) <;> simp_all only [smg_uart_swap_hw1, smg_uart_set_tx_hw1]

/-! ### Interrupt-enable tracking lemmas -/

theorem hwGet_hwSet_cases (s : SysState) (n : Nat) (h : UartHw) (m : Nat) :
    (hwGet (hwSet s n h) m = h ∧ hwGet s m = hwGet s n) ∨
    hwGet (hwSet s n h) m = hwGet s m := by
  by_cases hn : n = 0 <;> by_cases hm : m = 0 <;> simp_all [hwGet, hwSet]

/-- Writing one register bank preserves "no enable bit of `t`" at every bank,
    provided the written value preserves it for its own bank. -/
theorem hwSet_ena_zero (s : SysState) (n : Nat) (h : UartHw) (t : Nat)
    (hself : (hwGet s n).int_ena &&& t = 0 → h.int_ena &&& t = 0) (m : Nat)
    (hm : (hwGet s m).int_ena &&& t = 0) :
    (hwGet (hwSet s n h) m).int_ena &&& t = 0 := by
  rcases hwGet_hwSet_cases s n h m with ⟨he, hsame⟩ | he
  · rw [he]
    exact hself (hsame ▸ hm)
  · rw [he]
    exact hm

theorem uart_service_rx_ena_zero (u : smg_uart_t) (hw : UartHw) (usis status t : Nat)
    (h : hw.int_ena &&& t = 0) :
    (uart_service_rx u hw usis status).1.int_ena &&& t = 0 := by
  unfold uart_service_rx
  dsimp only
  (repeat' split) <;>
    first
      | exact h
      | exact clearBits_land_zero _ _ _ h

theorem uart_service_tx_ena_zero (u : smg_uart_t) (hw : UartHw) (status t : Nat)
    (h : hw.int_ena &&& t = 0) :
    (uart_service_tx u hw status).1.int_ena &&& t = 0 := by
  unfold uart_service_tx
  dsimp only
  (repeat' split) <;>
    first
      | exact h
      | exact clearBits_land_zero _ _ _ h

theorem uart_serve_ena_zero (u : smg_uart_t) (hw : UartHw) (usis t : Nat)
    (h : hw.int_ena &&& t = 0) :
    (uart_serve u hw usis).1.int_ena &&& t = 0 := by
  unfold uart_serve
  dsimp only
  (repeat' split) <;>
    first
      | exact h
      | exact uart_service_tx_ena_zero _ _ _ _ h
      | exact uart_service_tx_ena_zero _ _ _ _ (uart_service_rx_ena_zero _ _ _ _ _ h)
      | exact uart_service_rx_ena_zero _ _ _ _ _ h

/-- The interrupt handler never sets an interrupt-enable bit. -/
theorem handle_uart_interrupt_ena_zero (nr : Nat) (uo : Option smg_uart_t)
    (s : SysState) (t : Nat) (h : (hwGet s nr).int_ena &&& t = 0) :
    (hwGet (handle_uart_interrupt nr uo s).s nr).int_ena &&& t = 0 := by
  unfold handle_uart_interrupt
  dsimp only
  split
  · exact h
  · split
    · rw [hwGet_hwSet]
      exact Nat.zero_and t
    · split
      · rw [hwGet_hwSet]
        exact Nat.zero_and t
      · rw [hwGet_hwSet]
        exact uart_serve_ena_zero _ _ _ _ h

/-- A list-transfer description of the TX refill loop. -/
theorem fillLoop_spec (n : Nat) (buf : SerialBuffer) (fifo : List Nat)
    (h : n ≤ buf.data.length) :
    fillLoop n buf fifo =
      ({ buf with data := buf.data.drop n }, fifo ++ buf.data.take n) := by
  induction n generalizing buf fifo with
  | zero => simp [fillLoop]
  | succ n ih =>
    cases hd : buf.data with
    | nil =>
      rw [hd] at h
      simp at h
    | cons c rest =>
      rw [hd] at h
      simp only [List.length_cons, Nat.succ_le_succ_iff] at h
      simp only [fillLoop, SerialBuffer.readChar, hd]
      rw [ih { buf with data := rest } (fifo ++ [c]) h]
      simp [hd, List.append_assoc]

/-- Characterization of transmit servicing when a transmit buffer exists:
    `min(buffer available, FIFO free)` bytes move from the front of the
    buffer to the back of the FIFO; the enable bit for FIFO-empty is cleared
    exactly when the FIFO ends up empty, and otherwise the FIFO-empty bit is
    removed from the callback status word. -/
theorem uart_service_tx_spec (u : smg_uart_t) (hw : UartHw) (status : Nat)
    (tb : SerialBuffer) (htb : u.tx_buffer = some tb) :
    uart_service_tx u hw status =
      (let count := min tb.data.length (uart_txfifo_free hw)
       let hw1 := { hw with tx_fifo := hw.tx_fifo ++ tb.data.take count }
       let u1 := { u with tx_buffer := some { tb with data := tb.data.drop count } }
       if uart_txfifo_count hw1 = 0 then
         ({ hw1 with int_ena := clearBits hw1.int_ena UART_TXFIFO_EMPTY_INT_ENA }, u1, status)
       else (hw1, u1, clearBits status UART_TXFIFO_EMPTY_INT_ST)) := by
  unfold uart_service_tx
  rw [htb]
  dsimp only
  rw [show (if tb.available ≤ uart_txfifo_free hw then tb.available else uart_txfifo_free hw) =
      min tb.data.length (uart_txfifo_free hw) from Nat.min_def.symm]
  rw [fillLoop_spec _ _ _ (Nat.min_le_left _ _)]

/-- Receive servicing with a full receive buffer and no overflow condition
    masks the FIFO-full and timeout enables. -/
theorem uart_service_rx_full (u : smg_uart_t) (hw : UartHw) (usis status : Nat)
    (rb : SerialBuffer) (hrb : u.rx_buffer = some rb)
    (hfull : rb.getFreeSpace = 0) (hovf : usis &&& UART_RXFIFO_OVF_INT_ST = 0) :
    (uart_service_rx u hw usis status).1.int_ena =
      clearBits hw.int_ena (UART_RXFIFO_FULL_INT_ENA ||| UART_RXFIFO_TOUT_INT_ENA) := by
  unfold uart_service_rx
  rw [hrb]
  dsimp only
  rw [hfull]
  have hread : (if uart_rxfifo_count hw ≤ 0 then uart_rxfifo_count hw else 0) = 0 := by
    split <;> omega
  rw [hread]
  simp [hovf, drainLoop]

theorem uart_service_rx_tx_fifo (u : smg_uart_t) (hw : UartHw) (usis status : Nat) :
    (uart_service_rx u hw usis status).1.tx_fifo = hw.tx_fifo := by
  unfold uart_service_rx
  dsimp only
  (repeat' split) <;> rfl

theorem uart_service_rx_tx_buffer (u : smg_uart_t) (hw : UartHw) (usis status : Nat) :
    (uart_service_rx u hw usis status).2.1.tx_buffer = u.tx_buffer := by
  unfold uart_service_rx
  dsimp only
  (repeat' split) <;> rfl

theorem uart_service_rx_txfree (u : smg_uart_t) (hw : UartHw) (usis status : Nat) :
    uart_txfifo_free ((uart_service_rx u hw usis status).1) = uart_txfifo_free hw := by
  unfold uart_txfifo_free uart_txfifo_count
  rw [uart_service_rx_tx_fifo]

/-- Receive servicing only masks receive-side enables, so the FIFO-empty
    enable bit is untouched. -/
theorem uart_service_rx_ena_empty (u : smg_uart_t) (hw : UartHw) (usis status : Nat) :
    (uart_service_rx u hw usis status).1.int_ena &&& UART_TXFIFO_EMPTY_INT_ENA =
      hw.int_ena &&& UART_TXFIFO_EMPTY_INT_ENA := by
  unfold uart_service_rx
  dsimp only
  (repeat' split) <;>
    first
      | rfl
      | exact clearBits_land_disjoint _ _ _ (by decide) (by norm_num [UART_TXFIFO_EMPTY_INT_ENA, UART_TXFIFO_EMPTY_INT_ST])

theorem uart_service_rx_status_preserved (u : smg_uart_t) (hw : UartHw) (usis status : Nat) :
    (uart_service_rx u hw usis status).2.1.status = u.status := by
  unfold uart_service_rx
  dsimp only
  (repeat' split) <;> rfl

/-! ### Per-operation interrupt-enable lemmas -/

theorem smg_uart_set_baudrate_reg_int_ena (nr b : Nat) (s : SysState) (m : Nat) :
    (hwGet (smg_uart_set_baudrate_reg nr b s).2 m).int_ena = (hwGet s m).int_ena := by
  unfold smg_uart_set_baudrate_reg
  dsimp only
  split
  · rfl
  · exact hwGet_hwSet_int_ena s nr _ m rfl

theorem smg_uart_set_baudrate_int_ena (u : smg_uart_t) (b : Nat) (s : SysState) (m : Nat) :
    (hwGet (smg_uart_set_baudrate u b s).2.2 m).int_ena = (hwGet s m).int_ena := by
  unfold smg_uart_set_baudrate
  dsimp only
  split
  · split
    · rfl
    · have h1 : ∀ x : SysState, ∀ v, hwGet { x with inst0 := v } m = hwGet x m := by
        intro x v
        by_cases hm : m = 0 <;> simp [hwGet, hm]
      rw [h1]
      exact smg_uart_set_baudrate_reg_int_ena _ _ _ _
  · exact smg_uart_set_baudrate_reg_int_ena _ _ _ _

theorem smg_uart_get_status_int_ena (u : smg_uart_t) (s : SysState) (m : Nat) :
    (hwGet (smg_uart_get_status u s).2.2 m).int_ena = (hwGet s m).int_ena := by
  unfold smg_uart_get_status
  dsimp only
  split
  · rfl
  · exact hwGet_hwSet_int_ena s _ _ m rfl

theorem smg_uart_set_break_int_ena (u : smg_uart_t) (b : Bool) (s : SysState) (m : Nat) :
    (hwGet (smg_uart_set_break u b s) m).int_ena = (hwGet s m).int_ena := by
  unfold smg_uart_set_break
  dsimp only
  split
  · rfl
  · split <;> exact hwGet_hwSet_int_ena s _ _ m rfl

theorem smg_uart_read_ena_zero (u : smg_uart_t) (n : Nat) (s : SysState) (t m : Nat)
    (hd : (UART_RXFIFO_FULL_INT_ENA ||| UART_RXFIFO_TOUT_INT_ENA |||
      UART_RXFIFO_OVF_INT_ENA) &&& t = 0)
    (h : (hwGet s m).int_ena &&& t = 0) :
    (hwGet (smg_uart_read u n s).2.2 m).int_ena &&& t = 0 := by
  unfold smg_uart_read
  dsimp only
  split
  · exact h
  · split
    · refine hwSet_ena_zero s _ _ t ?_ m h
      intro hz
      dsimp only
      rw [lor_land, hz, hd]
      rfl
    · exact h

theorem smg_uart_flush_ena_zero (u : smg_uart_t) (mo : smg_uart_mode_t) (s : SysState)
    (t m : Nat)
    (hd : (UART_RXFIFO_FULL_INT_ENA ||| UART_RXFIFO_TOUT_INT_ENA |||
      UART_RXFIFO_OVF_INT_ENA) &&& t = 0)
    (h : (hwGet s m).int_ena &&& t = 0) :
    (hwGet (smg_uart_flush u mo s).2 m).int_ena &&& t = 0 := by
  unfold smg_uart_flush
  dsimp only
  (repeat' split) <;>
    first
      | exact h
      | (refine hwSet_ena_zero s _ _ t ?_ m h
         intro hz
         dsimp only
         first
           | exact hz
           | exact clearBits_land_zero _ _ _ hz
           | (rw [lor_land, hd]
              simp [clearBits_land_zero _ _ _ hz, hz]))

theorem smg_uart_write_ena_zero (u : smg_uart_t) (d : List Nat) (s : SysState) (t m : Nat)
    (hd : UART_TXFIFO_EMPTY_INT_ENA &&& t = 0)
    (h : (hwGet s m).int_ena &&& t = 0) :
    (hwGet (smg_uart_write u d s).2.2 m).int_ena &&& t = 0 := by
  unfold smg_uart_write
  dsimp only
  split
  · exact h
  · split
    · refine hwSet_ena_zero s _ _ t ?_ m h
      intro hz
      dsimp only
      rw [lor_land, hz, hd]
      rfl
    · exact h

theorem land_two_pow_eq_zero (x i : Nat) : x &&& 2 ^ i = 0 ↔ x.testBit i = false := by
  constructor
  · intro h
    cases hb : x.testBit i
    · rfl
    · exact absurd h ((land_two_pow_ne_zero x i).mpr hb)
  · intro h
    by_contra hz
    rw [(land_two_pow_ne_zero x i).mp hz] at h
    cases h

theorem smg_uart_set_baudrate_mode (u : smg_uart_t) (b : Nat) (s : SysState) :
    (smg_uart_set_baudrate u b s).2.1.mode = u.mode := by
  unfold smg_uart_set_baudrate
  dsimp only
  (repeat' split) <;> rfl

theorem smg_uart_flush_mode (u : smg_uart_t) (m : smg_uart_mode_t) (s : SysState) :
    (smg_uart_flush u m s).1.mode = u.mode := by
  unfold smg_uart_flush
  dsimp only
  (repeat' split) <;> rfl

/-- The common open() tail returns the configured instance with its mode
    intact. -/
theorem uartInitFinish_mode (u : smg_uart_t) (cfg : smg_uart_config_t) (s : SysState) :
    ∃ u1, (uartInitFinish u cfg s).1 = some u1 ∧ u1.mode = u.mode := by
  refine ⟨_, rfl, ?_⟩
  rw [smg_uart_flush_mode, smg_uart_set_baudrate_mode]

theorem setPinFunc_swap0 (s : SysState) (p f : Nat) :
    (setPinFunc s p f).swap0 = s.swap0 := rfl

theorem uart0_pin_select_swap0 (s : SysState) (p : Nat) :
    (uart0_pin_select s p).swap0 = s.swap0 := by
  unfold uart0_pin_select
  split <;> rfl

theorem uart0_pin_restore_swap0 (s : SysState) (p : Nat) :
    (uart0_pin_restore s p).swap0 = s.swap0 := by
  unfold uart0_pin_restore
  split <;> rfl

/-- Unfolded form of `smg_uart_get_status` on a physical UART0 instance. -/
theorem smg_uart_get_status_spec0 (u : smg_uart_t) (s : SysState) (hnr : u.uart_nr = 0) :
    smg_uart_get_status u s =
      (let st := u.status &&& (UART_BRK_DET_INT_ST ||| UART_RXFIFO_OVF_INT_ST)
       let ir := (hwGet s 0).int_raw &&&
         (UART_BRK_DET_INT_ST ||| UART_RXFIFO_OVF_INT_ST ||| UART_FRM_ERR_INT_ST |||
          UART_PARITY_ERR_INT_ST)
       (st ||| ir, { u with status := 0 },
        hwSet s 0 { hwGet s 0 with
          int_raw := clearBits (hwGet s 0).int_raw (st ||| ir) })) := by
  unfold smg_uart_get_status get_physical
  simp only [hnr]
  norm_num [UART2]
  simp only [hnr]
  exact ⟨trivial, trivial⟩

/-! ### Claim C9 -/

/-- C9: calling `smg_uart_init_ex` for a port identifier that already has a
    registered instance returns null and leaves the whole driver state —
    registry entry, existing instance, buffers and hardware — untouched. -/
theorem claimC9_duplicate_open_rejected (cfg : smg_uart_config_t) (s : SysState)
    (h : smg_uart_get_uart s cfg.uart_nr ≠ none) :
    smg_uart_init_ex cfg s = (none, s) := by
  unfold smg_uart_init_ex
  simp [h]

/-- C9 witness: a concrete duplicate open of UART0 is rejected without any
    state change. -/
theorem claimC9_witness : smg_uart_init_ex c9_cfg c9_sys = (none, c9_sys) :=
  claimC9_duplicate_open_rejected c9_cfg c9_sys (by decide)

/-! ### Claim C2 -/

/-- C2 counterexample: at a requested rate just above the reference clock
    the computed divider is zero and the reported rate is zero, yet the
    clock-divider register IS written (with zero) — starting from a bank
    whose divider register was never written, it ends up written.  This
    contradicts the claim that a zero divider leaves the register
    unwritten. -/
theorem claimC2_counterexample :
    (smg_uart_set_baudrate_reg 0 (UART_CLK_FREQ + 1) sys_init).1 = 0 ∧
    sys_init.hw0.clkdiv = none ∧
    (smg_uart_set_baudrate_reg 0 (UART_CLK_FREQ + 1) sys_init).2.hw0.clkdiv = some 0 := by
  refine ⟨?_, rfl, ?_⟩ <;> decide

/-- C2 (amended): on a physical port, a zero requested rate returns a
    reported rate of zero and leaves the hardware untouched (early return);
    any nonzero requested rate — including one above the reference clock,
    whose divider is zero — writes the computed divider to the register,
    and the reported rate is `UART_CLK_FREQ / divider` when the divider is
    nonzero and zero otherwise. -/
theorem claimC2_baudrate_reg (nr baud : Nat) (s : SysState)
    (hp : is_physical nr = true) :
    (baud = 0 → smg_uart_set_baudrate_reg nr baud s = (0, s)) ∧
    (baud ≠ 0 →
      (hwGet (smg_uart_set_baudrate_reg nr baud s).2 nr).clkdiv =
        some (UART_CLK_FREQ / baud) ∧
      (smg_uart_set_baudrate_reg nr baud s).1 =
        (if UART_CLK_FREQ / baud = 0 then 0 else UART_CLK_FREQ / (UART_CLK_FREQ / baud))) := by
  constructor
  · intro h
    unfold smg_uart_set_baudrate_reg
    simp [h]
  · intro h
    unfold smg_uart_set_baudrate_reg
    rw [if_neg (by simp [hp, h])]
    dsimp only
    refine ⟨by rw [hwGet_hwSet], ?_⟩
    split
    · simp_all
    · simp_all

/-- C2 witness: at 115200 baud the divider 694 is written and the reported
    rate is 115273; at a zero request nothing is written. -/
theorem claimC2_witness :
    smg_uart_set_baudrate_reg 0 0 sys_init = (0, sys_init) ∧
    (hwGet (smg_uart_set_baudrate_reg 0 115200 sys_init).2 0).clkdiv = some 694 ∧
    (smg_uart_set_baudrate_reg 0 115200 sys_init).1 = 115273 := by
  refine ⟨(claimC2_baudrate_reg 0 0 sys_init (by decide)).1 rfl, ?_, ?_⟩
  · have h := ((claimC2_baudrate_reg 0 115200 sys_init (by decide)).2 (by decide)).1
    rw [h]
    decide
  · have h := ((claimC2_baudrate_reg 0 115200 sys_init (by decide)).2 (by decide)).2
    rw [h]
    decide

/-! ### Claim C3 -/

/-- C3 counterexample: in the claimed scenario (8-byte receive buffer,
    headroom 2, six bytes delivered followed by a FIFO-full interrupt) the
    six bytes do land in the buffer and free space equals the headroom, but
    the data callback is INVOKED with the FIFO-full status — not
    suppressed: the handler suppresses only while free space is strictly
    greater than the headroom. -/
theorem claimC3_counterexample :
    (handle_uart_interrupt 0 (some c3_uart) c3_sys).cb =
      some UART_RXFIFO_FULL_INT_ST := by
  decide

/-- C3 (amended): with the 8-byte buffer and headroom 2, a six-byte
    delivery leaves free space exactly equal to the headroom and the
    callback fires with the FIFO-full status; the subsequent one-byte
    delivery (free space below the headroom) also fires; suppression
    happens only when free space remains strictly above the headroom, as
    with a five-byte delivery. -/
theorem claimC3_headroom_scenario :
    ((handle_uart_interrupt 0 (some c3_uart) c3_sys).uart.map
        (fun u => u.rx_buffer) = some (some ⟨8, [10, 20, 30, 40, 50, 60]⟩)) ∧
    (handle_uart_interrupt 0 (some c3_uart) c3_sys).cb =
      some UART_RXFIFO_FULL_INT_ST ∧
    (handle_uart_interrupt 0 c3_r1.uart c3_sys2).cb =
      some UART_RXFIFO_FULL_INT_ST ∧
    ((handle_uart_interrupt 0 c3_r1.uart c3_sys2).uart.map
        (fun u => u.rx_buffer) = some (some ⟨8, [10, 20, 30, 40, 50, 60, 70]⟩)) ∧
    (handle_uart_interrupt 0 (some c3_uart) c3_sys5).cb = none ∧
    ((handle_uart_interrupt 0 (some c3_uart) c3_sys5).uart.map
        (fun u => u.rx_buffer) = some (some ⟨8, [10, 20, 30, 40, 50]⟩)) := by
  decide

/-! ### Claim C6 -/

/-- C6: when an overflow has been recorded — stickily and/or in the raw
    hardware flags — the first `smg_uart_get_status` reports the overflow
    flag, zeroes the sticky store, clears the matching raw hardware flag,
    and an immediately following second call reports the overflow flag
    clear: the flag is delivered exactly once. -/
theorem claimC6_overflow_reported_once (u : smg_uart_t) (s : SysState)
    (hnr : u.uart_nr = 0)
    (hrec : (u.status ||| (hwGet s 0).int_raw) &&& UART_RXFIFO_OVF_INT_ST ≠ 0) :
    (smg_uart_get_status u s).1 &&& UART_RXFIFO_OVF_INT_ST ≠ 0 ∧
    (smg_uart_get_status u s).2.1.status = 0 ∧
    (hwGet (smg_uart_get_status u s).2.2 0).int_raw &&& UART_RXFIFO_OVF_INT_ST = 0 ∧
    (smg_uart_get_status (smg_uart_get_status u s).2.1
        (smg_uart_get_status u s).2.2).1 &&& UART_RXFIFO_OVF_INT_ST = 0 := by
  have h16 : UART_RXFIFO_OVF_INT_ST = 2 ^ 4 := by decide
  have hb : (u.status ||| (hwGet s 0).int_raw).testBit 4 = true :=
    (land_two_pow_ne_zero _ 4).mp (h16 ▸ hrec)
  have hb2 : u.status.testBit 4 = true ∨ ((hwGet s 0).int_raw).testBit 4 = true := by
    simpa [Nat.testBit_or] using hb
  have hm1 : (UART_BRK_DET_INT_ST ||| UART_RXFIFO_OVF_INT_ST).testBit 4 = true := by
    decide
  have hm2 : (UART_BRK_DET_INT_ST ||| UART_RXFIFO_OVF_INT_ST ||| UART_FRM_ERR_INT_ST |||
      UART_PARITY_ERR_INT_ST).testBit 4 = true := by decide
  rw [smg_uart_get_status_spec0 u s hnr]
  dsimp only
  have hr1 : ((u.status &&& (UART_BRK_DET_INT_ST ||| UART_RXFIFO_OVF_INT_ST)) |||
      ((hwGet s 0).int_raw &&& (UART_BRK_DET_INT_ST ||| UART_RXFIFO_OVF_INT_ST |||
        UART_FRM_ERR_INT_ST ||| UART_PARITY_ERR_INT_ST))).testBit 4 = true := by
    rcases hb2 with h | h <;> simp [Nat.testBit_or, Nat.testBit_and, h, hm1, hm2]
  have hOVFzero : ∀ x : Nat, x.testBit 4 = false → x &&& UART_RXFIFO_OVF_INT_ST = 0 :=
    fun x hx => by
      rw [h16]
      exact (land_two_pow_eq_zero x 4).mpr hx
  refine ⟨?_, rfl, ?_, ?_⟩
  · rw [h16]
    exact (land_two_pow_ne_zero _ 4).mpr hr1
  · rw [hwGet_hwSet]
    dsimp only
    apply hOVFzero
    rw [clearBits_testBit, hr1]
    simp
  · rw [smg_uart_get_status_spec0 _ _ (by exact hnr)]
    dsimp only
    rw [hwGet_hwSet]
    dsimp only
    apply hOVFzero
    rw [Nat.testBit_or, Nat.testBit_and, Nat.testBit_and, clearBits_testBit, hr1]
    simp

/-- C6 witness: a concrete overflow recorded in both the sticky store and
    the raw register is reported by the first status read and not by the
    second. -/
theorem claimC6_witness :
    (smg_uart_get_status c6_uart c6_sys).1 &&& UART_RXFIFO_OVF_INT_ST ≠ 0 ∧
    (smg_uart_get_status (smg_uart_get_status c6_uart c6_sys).2.1
        (smg_uart_get_status c6_uart c6_sys).2.2).1 &&& UART_RXFIFO_OVF_INT_ST = 0 := by
  have h := claimC6_overflow_reported_once c6_uart c6_sys rfl (by decide)
  exact ⟨h.1, h.2.2.2⟩

/-! ### Claim C10 -/

/-- C10: every status read zeroes the instance's sticky status field, and
    only the break-detect and overflow bits of the sticky store can reach
    the returned value: two sticky values agreeing on those two bits yield
    the same returned status, so all other stickily accumulated bits
    (FIFO-full, timeout, framing, parity, ...) are silently discarded. -/
theorem claimC10_sticky_reset_and_masked :
    (∀ (u : smg_uart_t) (s : SysState), (smg_uart_get_status u s).2.1.status = 0) ∧
    (∀ (u : smg_uart_t) (s : SysState) (x : Nat),
      u.status &&& (UART_BRK_DET_INT_ST ||| UART_RXFIFO_OVF_INT_ST) =
        x &&& (UART_BRK_DET_INT_ST ||| UART_RXFIFO_OVF_INT_ST) →
      (smg_uart_get_status { u with status := x } s).1 =
        (smg_uart_get_status u s).1) := by
  constructor
  · intro u s
    unfold smg_uart_get_status
    dsimp only
    split <;> rfl
  · intro u s x h
    unfold smg_uart_get_status
    dsimp only
    by_cases h2 : u.uart_nr = 2
    · simp only [get_physical, h2, UART2, if_pos]
      cases s.inst0 <;> simp [h]
    · simp only [get_physical, UART2]
      rw [if_neg (by exact h2), if_neg (by exact h2)]
      simp [h]

/-- C10 witness: with all hardware-error sticky bits accumulated, the read
    zeroes the sticky store, and replacing the sticky value by one agreeing
    only on break/overflow leaves the returned value unchanged. -/
theorem claimC10_witness :
    (smg_uart_get_status c10_uart sys_init).2.1.status = 0 ∧
    (smg_uart_get_status { c10_uart with status := 146 } sys_init).1 =
      (smg_uart_get_status c10_uart sys_init).1 := by
  exact ⟨claimC10_sticky_reset_and_masked.1 c10_uart sys_init,
    claimC10_sticky_reset_and_masked.2 c10_uart sys_init 146 (by decide)⟩

/-! ### Claim C1 -/

/-- C1 counterexample: on UART1 a receive-and-transmit request does NOT
    fail — `smg_uart_init_ex` succeeds and silently reduces the mode to
    transmit-only, contradicting the claim that every receive-enabling mode
    returns null. -/
theorem claimC1_counterexample :
    ((smg_uart_init_ex c1_cfg_full sys_init).1.map (fun u => u.mode)) =
      some UART_TX_ONLY := by
  decide

/-- C1 (amended): on UART1 (whose receive role is unsupported), a
    receive-only open fails with null and no state change, while a
    receive-and-transmit open succeeds with the mode silently reduced to
    transmit-only. -/
theorem claimC1_uart1_rx_modes (cfg : smg_uart_config_t) (s : SysState)
    (hnr : cfg.uart_nr = 1) (hfree : smg_uart_get_uart s 1 = none) :
    (cfg.mode = UART_RX_ONLY → smg_uart_init_ex cfg s = (none, s)) ∧
    (cfg.mode = UART_FULL →
      ∃ u1, (smg_uart_init_ex cfg s).1 = some u1 ∧ u1.mode = UART_TX_ONLY) := by
  rcases cfg with ⟨nr, txp, mode, opts, baud, fmt, rxs, txs⟩
  dsimp only at hnr
  subst hnr
  constructor
  · intro hm
    dsimp only at hm
    subst hm
    unfold smg_uart_init_ex
    rw [if_neg (by simpa using hfree)]
    rfl
  · intro hm
    dsimp only at hm
    subst hm
    unfold smg_uart_init_ex
    rw [if_neg (by simpa using hfree)]
    dsimp only
    rw [if_neg (by decide)]
    obtain ⟨w, h1, h2⟩ := uartInitFinish_mode _ _ _
    exact ⟨w, h1, by rw [h2]⟩

/-- C1 witness: concrete UART1 opens — receive-only refused, full mode
    reduced to transmit-only. -/
theorem claimC1_witness :
    smg_uart_init_ex c1_cfg_rx sys_init = (none, sys_init) ∧
    (∃ u1, (smg_uart_init_ex c1_cfg_full sys_init).1 = some u1 ∧
      u1.mode = UART_TX_ONLY) :=
  ⟨(claimC1_uart1_rx_modes c1_cfg_rx sys_init rfl (by decide)).1 rfl,
   (claimC1_uart1_rx_modes c1_cfg_full sys_init rfl (by decide)).2 rfl⟩

/-! ### Claim C7 -/

/-- C7: for UART0 holding the default pin assignment (UART pins for the
    enabled roles, the sentinel for unused roles, pin-swap control bit
    clear), a swap followed by a second swap whose target is the original
    transmit pin restores the exact original `tx_pin`, `rx_pin` and
    control-bit state. -/
theorem claimC7_swap_involutive (u : smg_uart_t) (s : SysState) (t1 : Int)
    (hnr : u.uart_nr = 0) (hswap : s.swap0 = false)
    (htx : smg_uart_tx_enabled u = true → u.tx_pin = 1 ∨ u.tx_pin = 2)
    (htxd : smg_uart_tx_enabled u = false → u.tx_pin = UART_PIN_DEFAULT)
    (hrx : smg_uart_rx_enabled u = true → u.rx_pin = 3)
    (hrxd : smg_uart_rx_enabled u = false → u.rx_pin = UART_PIN_DEFAULT) :
    (smg_uart_swap (smg_uart_swap u t1 s).1 (u.tx_pin : Int)
        (smg_uart_swap u t1 s).2).1.tx_pin = u.tx_pin ∧
    (smg_uart_swap (smg_uart_swap u t1 s).1 (u.tx_pin : Int)
        (smg_uart_swap u t1 s).2).1.rx_pin = u.rx_pin ∧
    (smg_uart_swap (smg_uart_swap u t1 s).1 (u.tx_pin : Int)
        (smg_uart_swap u t1 s).2).2.swap0 = s.swap0 := by
  rcases u with ⟨nr, baud, mode, opts, rxp, txp, hr, st, rb, tb, cb⟩
  dsimp only at hnr htx htxd hrx hrxd
  subst hnr
  cases mode
  · -- receive-and-transmit
    rcases htx rfl with h1 | h1 <;> subst h1 <;>
      rcases hrx rfl with h2 <;> subst h2 <;>
      simp [smg_uart_swap, smg_uart_tx_enabled, smg_uart_rx_enabled,
        uart0_pin_select_swap0, uart0_pin_restore_swap0, hswap]
  · -- receive-only
    rcases htxd rfl with h1 <;> subst h1 <;>
      rcases hrx rfl with h2 <;> subst h2 <;>
      simp [smg_uart_swap, smg_uart_tx_enabled, smg_uart_rx_enabled,
        uart0_pin_select_swap0, uart0_pin_restore_swap0, hswap, UART_PIN_DEFAULT]
  · -- transmit-only
    rcases htx rfl with h1 | h1 <;> subst h1 <;>
      rcases hrxd rfl with h2 <;> subst h2 <;>
      simp [smg_uart_swap, smg_uart_tx_enabled, smg_uart_rx_enabled,
        uart0_pin_select_swap0, uart0_pin_restore_swap0, hswap, UART_PIN_DEFAULT]

/-- C7 witness: the concrete default assignment tx = 2, rx = 3 swaps to
    (15, 13) and back to (2, 3) with the control bit restored. -/
theorem claimC7_witness :
    (smg_uart_swap (smg_uart_swap c7_uart 0 sys_init).1 (c7_uart.tx_pin : Int)
        (smg_uart_swap c7_uart 0 sys_init).2).1.tx_pin = c7_uart.tx_pin ∧
    (smg_uart_swap (smg_uart_swap c7_uart 0 sys_init).1 (c7_uart.tx_pin : Int)
        (smg_uart_swap c7_uart 0 sys_init).2).1.rx_pin = c7_uart.rx_pin ∧
    (smg_uart_swap (smg_uart_swap c7_uart 0 sys_init).1 (c7_uart.tx_pin : Int)
        (smg_uart_swap c7_uart 0 sys_init).2).2.swap0 = sys_init.swap0 :=
  claimC7_swap_involutive c7_uart sys_init 0 rfl rfl (by decide) (by decide)
    (by decide) (by decide)

/-! ### Claim C8 -/

/-- C8 counterexample: from the reachable mixed pin state tx = 1, rx = 13
    (open UART0, swap to the alternate set, then reassign only the transmit
    pin with `smg_uart_set_tx`), the request `set_pins(tx = 2, rx = 3)`
    returns false yet changes `tx_pin` from 1 to 15: a failed request with
    partial application, refuting the claim. -/
theorem claimC8_counterexample :
    (smg_uart_set_pins c8_uart 2 3 c8_sys).1 = false ∧
    c8_uart.tx_pin = 1 ∧
    (smg_uart_set_pins c8_uart 2 3 c8_sys).2.1.tx_pin = 15 := by
  decide

theorem smg_uart_rx_enabled_upd_tx (u : smg_uart_t) (x : Nat) :
    smg_uart_rx_enabled { u with tx_pin := x } = smg_uart_rx_enabled u := rfl

theorem smg_uart_rx_enabled_congr (u1 u2 : smg_uart_t) (h : u1.mode = u2.mode) :
    smg_uart_rx_enabled u1 = smg_uart_rx_enabled u2 := by
  unfold smg_uart_rx_enabled
  rw [h]

theorem smg_uart_swap_mode (u : smg_uart_t) (t : Int) (s : SysState) :
    (smg_uart_swap u t s).1.mode = u.mode := by
  unfold smg_uart_swap
  dsimp only
  (repeat' split) <;> rfl

/-- Pin outcome of `smg_uart_swap` on UART0: the receive pin. -/
theorem smg_uart_swap_rx_pin (u : smg_uart_t) (t : Int) (s : SysState)
    (hnr : u.uart_nr = 0) :
    (smg_uart_swap u t s).1.rx_pin =
      (if smg_uart_rx_enabled u = true then
        (if u.tx_pin = 1 ∨ u.tx_pin = 2 ∨ u.rx_pin = 3 then 13 else 3)
      else u.rx_pin) := by
  rcases u with ⟨nr, baud, mode, opts, rxp, txp, hr, st, rb, tb, cb⟩
  dsimp only at hnr ⊢
  subst hnr
  unfold smg_uart_swap
  dsimp only
  cases mode <;>
    by_cases hc : txp = 1 ∨ txp = 2 ∨ rxp = 3 <;>
      simp [hc, smg_uart_rx_enabled, smg_uart_tx_enabled]

/-- Pin outcome of `smg_uart_swap` on UART0: the transmit pin. -/
theorem smg_uart_swap_tx_pin (u : smg_uart_t) (t : Int) (s : SysState)
    (hnr : u.uart_nr = 0) :
    (smg_uart_swap u t s).1.tx_pin =
      (if smg_uart_tx_enabled u = true then
        (if u.tx_pin = 1 ∨ u.tx_pin = 2 ∨ u.rx_pin = 3 then 15
         else (if t = 2 then 2 else 1))
      else u.tx_pin) := by
  rcases u with ⟨nr, baud, mode, opts, rxp, txp, hr, st, rb, tb, cb⟩
  dsimp only at hnr ⊢
  subst hnr
  unfold smg_uart_swap
  dsimp only
  cases mode <;>
    by_cases hc : txp = 1 ∨ txp = 2 ∨ rxp = 3 <;>
      simp [hc, smg_uart_rx_enabled, smg_uart_tx_enabled]

/-- Control-bit outcome of `smg_uart_swap` on UART0. -/
theorem smg_uart_swap_swap0_val (u : smg_uart_t) (t : Int) (s : SysState)
    (hnr : u.uart_nr = 0) :
    (smg_uart_swap u t s).2.swap0 =
      (if u.tx_pin = 1 ∨ u.tx_pin = 2 ∨ u.rx_pin = 3 then true else false) := by
  rcases u with ⟨nr, baud, mode, opts, rxp, txp, hr, st, rb, tb, cb⟩
  dsimp only at hnr ⊢
  subst hnr
  unfold smg_uart_swap
  dsimp only
  cases mode <;>
    by_cases hc : txp = 1 ∨ txp = 2 ∨ rxp = 3 <;>
      simp [hc, smg_uart_rx_enabled, smg_uart_tx_enabled,
        uart0_pin_select_swap0, uart0_pin_restore_swap0]

theorem smg_uart_set_tx_rx_pin (u : smg_uart_t) (t : Int) (s : SysState) :
    (smg_uart_set_tx u t s).2.1.rx_pin = u.rx_pin := by
  unfold smg_uart_set_tx
  split <;> rfl

set_option maxHeartbeats 1000000 in
/-- C8 (amended): for every open UART whose pin state is coherent — the
    transmit pin is on the default set (1 or 2) only while the receive pin
    is too (rx = 3), ruling out the mixed state `set_tx` can create while
    swapped — a `smg_uart_set_pins` call that returns false leaves
    `tx_pin`, `rx_pin` and the hardware pin-swap control bit exactly as
    they were. -/
theorem claimC8_set_pins_no_partial (u : smg_uart_t) (s : SysState) (t r : Int)
    (hcoh : smg_uart_tx_enabled u = true → smg_uart_rx_enabled u = true →
      (u.tx_pin = 1 ∨ u.tx_pin = 2) → u.rx_pin = 3) :
    (smg_uart_set_pins u t r s).1 = false →
    (smg_uart_set_pins u t r s).2.1.tx_pin = u.tx_pin ∧
    (smg_uart_set_pins u t r s).2.1.rx_pin = u.rx_pin ∧
    (smg_uart_set_pins u t r s).2.2.swap0 = s.swap0 := by
  intro hf
  unfold smg_uart_set_pins at hf ⊢
  by_cases h0 : u.uart_nr ≠ UART0
  · rw [if_pos h0]
    exact ⟨rfl, rfl, rfl⟩
  · rw [if_neg h0] at hf ⊢
    dsimp only at hf ⊢
    have hnr : u.uart_nr = 0 := by simpa [UART0] using h0
    by_cases hb1 : smg_uart_tx_enabled u = true ∧ (u.tx_pin : Int) ≠ t
    · rw [if_pos hb1] at hf ⊢
      by_cases hc1 : r = 13 ∧ t = 15
      · rw [if_pos hc1] at hf ⊢
        dsimp only at hf ⊢
        by_cases hd : smg_uart_rx_enabled (smg_uart_swap u 15 s).1 = true ∧
            ((smg_uart_swap u 15 s).1.rx_pin : Int) ≠ r
        · rw [if_pos hd] at hf
          rw [if_pos hc1] at hf
          simp at hf
        · rw [if_neg hd] at hf
          simp at hf
      · rw [if_neg hc1] at hf ⊢
        by_cases hc2 : r = 3 ∧ (t = 1 ∨ t = 2)
        · rw [if_pos hc2] at hf ⊢
          by_cases hc3 : (u.rx_pin : Int) ≠ r
          · rw [if_pos hc3] at hf ⊢
            dsimp only at hf ⊢
            by_cases hd : smg_uart_rx_enabled (smg_uart_swap u t s).1 = true ∧
                ((smg_uart_swap u t s).1.rx_pin : Int) ≠ r
            · exfalso
              have hrxen : smg_uart_rx_enabled u = true := by
                have hm := smg_uart_rx_enabled_congr (smg_uart_swap u t s).1 u
                  (smg_uart_swap_mode u t s)
                rw [← hm]
                exact hd.1
              have hrxne : u.rx_pin ≠ 3 := by
                intro he
                exact hc3 (by rw [he, hc2.1]; norm_num)
              by_cases hsw : u.tx_pin = 1 ∨ u.tx_pin = 2 ∨ u.rx_pin = 3
              · have htx12 : u.tx_pin = 1 ∨ u.tx_pin = 2 := by
                  rcases hsw with h | h | h
                  · exact Or.inl h
                  · exact Or.inr h
                  · exact absurd h hrxne
                exact hrxne (hcoh hb1.1 hrxen htx12)
              · have := smg_uart_swap_rx_pin u t s hnr
                rw [if_pos hrxen, if_neg hsw] at this
                apply hd.2
                rw [this, hc2.1]
                norm_num
            · rw [if_neg hd] at hf
              simp at hf
          · rw [if_neg hc3] at hf ⊢
            dsimp only at hf ⊢
            by_cases hd : smg_uart_rx_enabled (smg_uart_set_tx u t s).2.1 = true ∧
                ((smg_uart_set_tx u t s).2.1.rx_pin : Int) ≠ r
            · exfalso
              apply hd.2
              rw [smg_uart_set_tx_rx_pin]
              exact not_not.mp hc3
            · rw [if_neg hd] at hf
              simp at hf
        · rw [if_neg hc2] at hf ⊢
          dsimp only at hf ⊢
          by_cases hd : smg_uart_rx_enabled u = true ∧ ((u.rx_pin : Int) ≠ r)
          · rw [if_pos hd] at hf ⊢
            rw [if_neg hc1] at hf ⊢
            exact ⟨rfl, rfl, rfl⟩
          · rw [if_neg hd] at hf ⊢
            exact ⟨rfl, rfl, rfl⟩
    · rw [if_neg hb1] at hf ⊢
      dsimp only at hf ⊢
      by_cases hd : smg_uart_rx_enabled u = true ∧ ((u.rx_pin : Int) ≠ r)
      · rw [if_pos hd] at hf ⊢
        by_cases he : r = 13 ∧ t = 15
        · rw [if_pos he] at hf
          simp at hf
        · rw [if_neg he] at hf ⊢
          exact ⟨rfl, rfl, rfl⟩
      · rw [if_neg hd] at hf ⊢
        exact ⟨rfl, rfl, rfl⟩

/-- C8 witness: a coherent default pin state with an unsupported request
    (tx = 7, rx = 9) fails and is left fully unchanged. -/
theorem claimC8_witness :
    (smg_uart_set_pins c8w_uart 7 9 sys_init).2.1.tx_pin = c8w_uart.tx_pin ∧
    (smg_uart_set_pins c8w_uart 7 9 sys_init).2.1.rx_pin = c8w_uart.rx_pin ∧
    (smg_uart_set_pins c8w_uart 7 9 sys_init).2.2.swap0 = sys_init.swap0 :=
  claimC8_set_pins_no_partial c8w_uart sys_init 7 9 (by decide) (by decide)

/-! ### Claim C4 -/

/-- C4 counterexample: with the receive buffer full (zero bytes drained)
    but the overflow bit latched together with FIFO-full, the handler
    masks only the overflow enable — the FIFO-full and timeout enables
    remain set, contradicting the claim that they are cleared whenever
    zero bytes are drained from a full buffer. -/
theorem claimC4_counterexample :
    c4_uart.rx_buffer = some ⟨4, [1, 2, 3, 4]⟩ ∧
    (handle_uart_interrupt 0 (some c4_uart) c4_sys).s.hw0.rx_fifo = [9, 9] ∧
    (handle_uart_interrupt 0 (some c4_uart) c4_sys).s.hw0.int_ena &&&
      (UART_RXFIFO_FULL_INT_ENA ||| UART_RXFIFO_TOUT_INT_ENA) ≠ 0 := by
  decide

/-- C4 (amended): when the receive interrupt handler (non-raw mode,
    receive buffer present) sees a FIFO-full or timeout event, drains zero
    bytes because the buffer is full, and the overflow status bit is NOT
    part of the event, the FIFO-full and timeout interrupt-enable bits are
    cleared before the handler returns; and among the modelled mainline
    operations, only `smg_uart_read` and `smg_uart_flush` can turn those
    enable bits back on. -/
theorem claimC4_rx_mask_and_rearm :
    (∀ (nr : Nat) (u : smg_uart_t) (s : SysState) (rb : SerialBuffer),
      uart_isr_enabled s nr = true →
      u.options.testBit UART_OPT_CALLBACK_RAW = false →
      u.rx_buffer = some rb →
      rb.getFreeSpace = 0 →
      ((hwGet s nr).int_raw &&& (hwGet s nr).int_ena) &&&
        (UART_RXFIFO_FULL_INT_ST ||| UART_RXFIFO_TOUT_INT_ST) ≠ 0 →
      ((hwGet s nr).int_raw &&& (hwGet s nr).int_ena) &&&
        UART_RXFIFO_OVF_INT_ST = 0 →
      (hwGet (handle_uart_interrupt nr (some u) s).s nr).int_ena &&&
        (UART_RXFIFO_FULL_INT_ENA ||| UART_RXFIFO_TOUT_INT_ENA) = 0) ∧
    (∀ (op : DriverOp) (u : smg_uart_t) (s : SysState),
      (hwGet s u.uart_nr).int_ena &&&
        (UART_RXFIFO_FULL_INT_ENA ||| UART_RXFIFO_TOUT_INT_ENA) = 0 →
      (hwGet (applyOp op u s).2 u.uart_nr).int_ena &&&
        (UART_RXFIFO_FULL_INT_ENA ||| UART_RXFIFO_TOUT_INT_ENA) ≠ 0 →
      (∃ n, op = DriverOp.opRead n) ∨ (∃ m, op = DriverOp.opFlush m)) := by
  constructor
  · intro nr u s rb hen hraw hrb hfull hrx hovf
    have husis : (hwGet s nr).int_raw &&& (hwGet s nr).int_ena ≠ 0 := by
      intro h
      apply hrx
      rw [h]
      exact Nat.zero_and _
    have hrx3 : ((hwGet s nr).int_raw &&& (hwGet s nr).int_ena) &&&
        (UART_RXFIFO_FULL_INT_ST ||| UART_RXFIFO_TOUT_INT_ST |||
          UART_RXFIFO_OVF_INT_ST) ≠ 0 :=
      land_ne_zero_mono _ _ _ (by decide) hrx
    have hid : (uart_service_rx u (hwGet s nr)
        ((hwGet s nr).int_raw &&& (hwGet s nr).int_ena)
        ((hwGet s nr).int_raw &&& (hwGet s nr).int_ena)).1.int_ena =
        clearBits (hwGet s nr).int_ena
          (UART_RXFIFO_FULL_INT_ENA ||| UART_RXFIFO_TOUT_INT_ENA) :=
      uart_service_rx_full u _ _ _ rb hrb hfull hovf
    unfold handle_uart_interrupt
    try dsimp only
    rw [if_neg husis]
    try dsimp only
    rw [if_neg (by simp [hen])]
    try dsimp only
    rw [hwGet_hwSet]
    try dsimp only
    unfold uart_serve
    try dsimp only
    rw [if_neg (by simp [hraw])]
    try dsimp only
    rw [if_pos hrx3]
    try dsimp only
    split
    · apply uart_service_tx_ena_zero
      rw [hid]
      exact clearBits_land_subset _ _ _ (by decide)
    · rw [hid]
      exact clearBits_land_subset _ _ _ (by decide)
  · intro op u s hz hnz
    cases op with
    | opIsr => exact absurd (handle_uart_interrupt_ena_zero _ _ _ _ hz) hnz
    | opRead n => exact Or.inl ⟨n, rfl⟩
    | opWrite d => exact absurd (smg_uart_write_ena_zero u d s _ u.uart_nr (by decide) hz) hnz
    | opFlush m => exact Or.inr ⟨m, rfl⟩
    | opGetStatus =>
      exfalso
      apply hnz
      dsimp only [applyOp]
      rw [smg_uart_get_status_int_ena]
      exact hz
    | opRxAvail => exact absurd hz hnz
    | opTxFree => exact absurd hz hnz
    | opSetBreak b =>
      exfalso
      apply hnz
      dsimp only [applyOp]
      rw [smg_uart_set_break_int_ena]
      exact hz
    | opSetBaud rr =>
      exfalso
      apply hnz
      dsimp only [applyOp]
      rw [smg_uart_set_baudrate_int_ena]
      exact hz
    | opSwap tt =>
      exfalso
      apply hnz
      dsimp only [applyOp]
      rw [hwGet_congr s (smg_uart_swap u tt s).2 u.uart_nr
        (smg_uart_swap_hw0 u tt s) (smg_uart_swap_hw1 u tt s)]
      exact hz
    | opSetTx tt =>
      exfalso
      apply hnz
      dsimp only [applyOp]
      rw [hwGet_congr s (smg_uart_set_tx u tt s).2.2 u.uart_nr
        (smg_uart_set_tx_hw0 u tt s) (smg_uart_set_tx_hw1 u tt s)]
      exact hz
    | opSetPins tt rr =>
      exfalso
      apply hnz
      dsimp only [applyOp]
      rw [hwGet_congr s (smg_uart_set_pins u tt rr s).2.2 u.uart_nr
        (smg_uart_set_pins_hw0 u tt rr s) (smg_uart_set_pins_hw1 u tt rr s)]
      exact hz

/-- C4 witness: with the buffer full and only FIFO-full latched, the
    concrete handler run masks both enables; and a concrete
    `smg_uart_read` transition that turns the enables back on is classified
    as a read. -/
theorem claimC4_witness :
    (hwGet (handle_uart_interrupt 0 (some c4_uart) c4_sys_noovf).s 0).int_ena &&&
      (UART_RXFIFO_FULL_INT_ENA ||| UART_RXFIFO_TOUT_INT_ENA) = 0 ∧
    ((∃ n, DriverOp.opRead 1 = DriverOp.opRead n) ∨
      (∃ m, DriverOp.opRead 1 = DriverOp.opFlush m)) := by
  constructor
  · exact claimC4_rx_mask_and_rearm.1 0 c4_uart c4_sys_noovf ⟨4, [1, 2, 3, 4]⟩
      (by decide) (by decide) rfl (by decide) (by decide) (by decide)
  · exact claimC4_rx_mask_and_rearm.2 (DriverOp.opRead 1) c4_uart_rd c4_sys_rd
      (by decide) (by decide)

/-! ### Claim C5 -/

/-- C5: on a transmit-FIFO-empty event (non-raw mode, transmit buffer
    present) the handler moves `min(buffer available, TX FIFO free)` bytes
    from the front of the transmit buffer to the back of the FIFO; if the
    FIFO is then empty the FIFO-empty enable bit is cleared, otherwise it
    keeps its previous value and any status word delivered to the data
    callback has the FIFO-empty bit removed; and among the modelled
    mainline operations only `smg_uart_write` can set the FIFO-empty
    enable bit. -/
theorem claimC5_tx_refill_and_rearm :
    (∀ (nr : Nat) (u : smg_uart_t) (s : SysState) (tb : SerialBuffer),
      uart_isr_enabled s nr = true →
      u.options.testBit UART_OPT_CALLBACK_RAW = false →
      u.tx_buffer = some tb →
      ((hwGet s nr).int_raw &&& (hwGet s nr).int_ena) &&&
        UART_TXFIFO_EMPTY_INT_ST ≠ 0 →
      ((hwGet (handle_uart_interrupt nr (some u) s).s nr).tx_fifo =
        (hwGet s nr).tx_fifo ++
          tb.data.take (min tb.data.length (uart_txfifo_free (hwGet s nr)))) ∧
      (∃ u2, (handle_uart_interrupt nr (some u) s).uart = some u2 ∧
        u2.tx_buffer =
          some ⟨tb.capacity,
            tb.data.drop (min tb.data.length (uart_txfifo_free (hwGet s nr)))⟩) ∧
      ((hwGet s nr).tx_fifo ++
          tb.data.take (min tb.data.length (uart_txfifo_free (hwGet s nr))) = [] →
        (hwGet (handle_uart_interrupt nr (some u) s).s nr).int_ena &&&
          UART_TXFIFO_EMPTY_INT_ENA = 0) ∧
      ((hwGet s nr).tx_fifo ++
          tb.data.take (min tb.data.length (uart_txfifo_free (hwGet s nr))) ≠ [] →
        ((hwGet (handle_uart_interrupt nr (some u) s).s nr).int_ena &&&
            UART_TXFIFO_EMPTY_INT_ENA =
          (hwGet s nr).int_ena &&& UART_TXFIFO_EMPTY_INT_ENA) ∧
        (∀ v, (handle_uart_interrupt nr (some u) s).cb = some v →
          v &&& UART_TXFIFO_EMPTY_INT_ST = 0))) ∧
    (∀ (op : DriverOp) (u : smg_uart_t) (s : SysState),
      (hwGet s u.uart_nr).int_ena &&& UART_TXFIFO_EMPTY_INT_ENA = 0 →
      (hwGet (applyOp op u s).2 u.uart_nr).int_ena &&&
        UART_TXFIFO_EMPTY_INT_ENA ≠ 0 →
      ∃ d, op = DriverOp.opWrite d) := by
  constructor
  · intro nr u s tb hen hraw htb hempty
    have husis : (hwGet s nr).int_raw &&& (hwGet s nr).int_ena ≠ 0 := by
      intro h
      apply hempty
      rw [h]
      exact Nat.zero_and _
    unfold handle_uart_interrupt
    try dsimp only
    rw [if_neg husis]
    try dsimp only
    rw [if_neg (by simp [hen])]
    try dsimp only
    rw [hwGet_hwSet]
    try dsimp only
    unfold uart_serve
    try dsimp only
    rw [if_neg (by simp [hraw])]
    try dsimp only
    rw [if_pos hempty]
    try dsimp only
    split
    · -- a receive event is serviced first; it leaves the transmit side alone
      rw [uart_service_tx_spec _ _ _ tb (by rw [uart_service_rx_tx_buffer]; exact htb)]
      try dsimp only
      rw [uart_service_rx_txfree, uart_service_rx_tx_fifo]
      split
      · next hfifo0 =>
        unfold uart_txfifo_count at hfifo0
        dsimp only at hfifo0
        refine ⟨rfl, ⟨_, rfl, rfl⟩, fun _ => ?_, fun hne => ?_⟩
        · exact clearBits_land_subset _ _ _ (by decide)
        · exact absurd (List.length_eq_zero.mp hfifo0) hne
      · next hfifon =>
        refine ⟨rfl, ⟨_, rfl, rfl⟩, fun hnil => ?_, fun hne => ⟨?_, ?_⟩⟩
        · exfalso
          apply hfifon
          unfold uart_txfifo_count
          dsimp only
          rw [hnil]
          rfl
        · exact uart_service_rx_ena_empty _ _ _ _
        · intro v hv
          split at hv
          · injection hv with hv2
            rw [← hv2]
            exact clearBits_land_subset _ _ _ (by decide)
          · cases hv
    · -- no receive event: the transmit buffer and FIFO are used directly
      rw [uart_service_tx_spec _ _ _ tb htb]
      try dsimp only
      split
      · next hfifo0 =>
        unfold uart_txfifo_count at hfifo0
        dsimp only at hfifo0
        refine ⟨rfl, ⟨_, rfl, rfl⟩, fun _ => ?_, fun hne => ?_⟩
        · exact clearBits_land_subset _ _ _ (by decide)
        · exact absurd (List.length_eq_zero.mp hfifo0) hne
      · next hfifon =>
        refine ⟨rfl, ⟨_, rfl, rfl⟩, fun hnil => ?_, fun hne => ⟨rfl, ?_⟩⟩
        · exfalso
          apply hfifon
          unfold uart_txfifo_count
          dsimp only
          rw [hnil]
          rfl
        · intro v hv
          split at hv
          · injection hv with hv2
            rw [← hv2]
            exact clearBits_land_subset _ _ _ (by decide)
          · cases hv
  · intro op u s hz hnz
    cases op with
    | opWrite d => exact ⟨d, rfl⟩
    | opIsr => exact absurd (handle_uart_interrupt_ena_zero _ _ _ _ hz) hnz
    | opRead n => exact absurd (smg_uart_read_ena_zero u n s _ u.uart_nr (by decide) hz) hnz
    | opFlush m => exact absurd (smg_uart_flush_ena_zero u m s _ u.uart_nr (by decide) hz) hnz
    | opGetStatus =>
      exfalso
      apply hnz
      dsimp only [applyOp]
      rw [smg_uart_get_status_int_ena]
      exact hz
    | opRxAvail => exact absurd hz hnz
    | opTxFree => exact absurd hz hnz
    | opSetBreak b =>
      exfalso
      apply hnz
      dsimp only [applyOp]
      rw [smg_uart_set_break_int_ena]
      exact hz
    | opSetBaud rr =>
      exfalso
      apply hnz
      dsimp only [applyOp]
      rw [smg_uart_set_baudrate_int_ena]
      exact hz
    | opSwap tt =>
      exfalso
      apply hnz
      dsimp only [applyOp]
      rw [hwGet_congr s (smg_uart_swap u tt s).2 u.uart_nr
        (smg_uart_swap_hw0 u tt s) (smg_uart_swap_hw1 u tt s)]
      exact hz
    | opSetTx tt =>
      exfalso
      apply hnz
      dsimp only [applyOp]
      rw [hwGet_congr s (smg_uart_set_tx u tt s).2.2 u.uart_nr
        (smg_uart_set_tx_hw0 u tt s) (smg_uart_set_tx_hw1 u tt s)]
      exact hz
    | opSetPins tt rr =>
      exfalso
      apply hnz
      dsimp only [applyOp]
      rw [hwGet_congr s (smg_uart_set_pins u tt rr s).2.2 u.uart_nr
        (smg_uart_set_pins_hw0 u tt rr s) (smg_uart_set_pins_hw1 u tt rr s)]
      exact hz

/-- C5 witness: a concrete FIFO-empty event moves both buffered bytes into
    the FIFO, and a concrete `smg_uart_write` transition turning on the
    FIFO-empty enable is classified as a write. -/
theorem claimC5_witness :
    ((hwGet (handle_uart_interrupt 0 (some c5_uart) c5_sys).s 0).tx_fifo =
      (hwGet c5_sys 0).tx_fifo ++
        (([5, 6] : List Nat).take (min ([5, 6] : List Nat).length
          (uart_txfifo_free (hwGet c5_sys 0))))) ∧
    (∃ d, DriverOp.opWrite [7] = DriverOp.opWrite d) := by
  constructor
  · exact (claimC5_tx_refill_and_rearm.1 0 c5_uart c5_sys ⟨8, [5, 6]⟩
      (by decide) (by decide) rfl (by decide)).1
  · exact claimC5_tx_refill_and_rearm.2 (DriverOp.opWrite [7]) c5_uart_wr c5_sys_wr
      (by decide) (by decide)

end Uart
